import Mathlib

/-!
Verification development for the qop task-queue engine.

The Python sources (qop/tasks.py, qop/daemon.py, qop/converters.py,
qop/constants.py, qop/exceptions.py) are shallowly embedded below:

* JSON values are modelled by the inductive `JVal`; Python's
  `json.dumps` (with its default `", "` / `": "` separators and
  `ensure_ascii=True`) is modelled by `dumpVal`, and `json.loads` by the
  fuel-based parser `parseVal` / `jsonLoads`.  `json.dumps` output on
  "clean" (printable-ASCII) strings is pure ASCII, so byte strings are
  modelled as `List Char` with one char per byte.
* Tasks (`Task` and its subclasses) are modelled by `TaskData`,
  converters by `ConvObj`; both mirror the exact `__dict__` layout of
  the Python objects, so Lean structural equality coincides with
  Python `__eq__` (which compares `__dict__`).
* The sqlite3-backed `TaskQueue` is modelled as a `List Row` with the
  operations `put`, `pop`, `set_status`, `reset_active_tasks`, `flush`
  translated statement by statement; SQLite's `LIKE` operator is
  implemented by `likeMatch`.
* The wire protocol (`Message.encode` / `Message.from_bytes`) is
  modelled over `List Char` byte strings.
-/

set_option autoImplicit false

deriving instance DecidableEq for Except

/-- Python exceptions raised by the modelled code paths. -/
inductive PyExc where
  | fileNotFound
  | typeError
  | fileExistsIdentical
  | fileExistsError
  | cannotCompare
  | keyError
  | valueError
  | attributeError
  | unknownTaskType
  | assertionError
  | indexError
  | alreadyClaimed
  | structError
  | notImplemented
  deriving DecidableEq, Repr

/-- JSON values as produced and consumed by the Python `json` module
(arrays are not needed by any claim and are omitted). -/
inductive JVal where
  | jnull
  | jbool (b : Bool)
  | jint (n : Int)
  | jstr (s : String)
  | jobj (fields : List (String × JVal))
  deriving Repr

mutual
/-- Boolean equality on JSON values (deriving does not handle the
nested inductive). -/
def JVal.beq : JVal → JVal → Bool
  | .jnull, .jnull => true
  | .jbool a, .jbool b => a == b
  | .jint a, .jint b => a == b
  | .jstr a, .jstr b => a == b
  | .jobj a, .jobj b => JVal.beqFields a b
  | _, _ => false

/-- Boolean equality on JSON object member lists. -/
def JVal.beqFields : List (String × JVal) → List (String × JVal) → Bool
  | [], [] => true
  | (k1, v1) :: r1, (k2, v2) :: r2 =>
    k1 == k2 && JVal.beq v1 v2 && JVal.beqFields r1 r2
  | _, _ => false
end

mutual
theorem JVal.eq_of_beq : ∀ {a b : JVal}, JVal.beq a b = true → a = b
  | .jnull, .jnull, _ => rfl
  | .jbool _, .jbool _, h => by
    simp only [JVal.beq, beq_iff_eq] at h; exact h ▸ rfl
  | .jint _, .jint _, h => by
    simp only [JVal.beq, beq_iff_eq] at h; exact h ▸ rfl
  | .jstr _, .jstr _, h => by
    simp only [JVal.beq, beq_iff_eq] at h; exact h ▸ rfl
  | .jobj a, .jobj b, h => by
    simp only [JVal.beq] at h
    exact congrArg JVal.jobj (JVal.eqFields_of_beq h)

theorem JVal.eqFields_of_beq :
    ∀ {a b : List (String × JVal)}, JVal.beqFields a b = true → a = b
  | [], [], _ => rfl
  | (k1, v1) :: r1, (k2, v2) :: r2, h => by
    simp only [JVal.beqFields, Bool.and_eq_true, beq_iff_eq] at h
    obtain ⟨⟨hk, hv⟩, hr⟩ := h
    rw [hk, JVal.eq_of_beq hv, JVal.eqFields_of_beq hr]
end

mutual
theorem JVal.beq_refl : ∀ (a : JVal), JVal.beq a a = true
  | .jnull => rfl
  | .jbool b => by simp [JVal.beq]
  | .jint n => by simp [JVal.beq]
  | .jstr s => by simp [JVal.beq]
  | .jobj a => by simp only [JVal.beq]; exact JVal.beqFields_refl a

theorem JVal.beqFields_refl : ∀ (a : List (String × JVal)), JVal.beqFields a a = true
  | [] => rfl
  | (k, v) :: r => by
    simp only [JVal.beqFields, Bool.and_eq_true, beq_iff_eq]
    exact ⟨⟨trivial, JVal.beq_refl v⟩, JVal.beqFields_refl r⟩
end

instance : DecidableEq JVal := fun a b =>
  if h : JVal.beq a b = true then isTrue (JVal.eq_of_beq h)
  else isFalse (fun he => h (he ▸ JVal.beq_refl a))

/-- A JSON object body: a Python dict, ordered by key insertion. -/
abbrev Dict := List (String × JVal)

/-- First-match key lookup, as in a Python dict (keys are unique there). -/
def dictLookup (d : Dict) (k : String) : Option JVal :=
  match d with
  | [] => none
  | (k', v) :: rest => if k' = k then some v else dictLookup rest k

/-- Decimal digits of a natural number, most significant first, with
structural fuel (any fuel above the number suffices). -/
def natCharsGo : Nat → Nat → List Char
  | 0, _ => []
  | fuel + 1, n =>
    if n < 10 then [Char.ofNat (48 + n)]
    else natCharsGo fuel (n / 10) ++ [Char.ofNat (48 + n % 10)]

/-- Decimal digits of a natural number, most significant first
(the digits of Python's `repr` for a nonnegative int). -/
def natChars (n : Nat) : List Char := natCharsGo (n + 1) n

/-- Python `repr` of an int, as characters. -/
def intChars (n : Int) : List Char :=
  if n < 0 then '-' :: natChars n.natAbs else natChars n.natAbs

/-- JSON string escaping of one character: `json.dumps` escapes `"` and
backslash; on clean printable-ASCII input nothing else is escaped. -/
def escChar (c : Char) : List Char :=
  if c = '"' ∨ c = '\\' then ['\\', c] else [c]

/-- JSON string escaping of a character sequence. -/
def escChars : List Char → List Char
  | [] => []
  | c :: cs => escChar c ++ escChars cs

mutual
/-- Model of `json.dumps` (default separators, as used by the repo). -/
def dumpVal : JVal → List Char
  | .jnull => 'n' :: 'u' :: 'l' :: 'l' :: []
  | .jbool true => 't' :: 'r' :: 'u' :: 'e' :: []
  | .jbool false => 'f' :: 'a' :: 'l' :: 's' :: 'e' :: []
  | .jint n => intChars n
  | .jstr s => '"' :: (escChars s.data ++ ['"'])
  | .jobj [] => ['\x7b', '\x7d']
  | .jobj (f :: fs) => '\x7b' :: (dumpMembers (f :: fs) ++ ['\x7d'])

/-- Serialization of the key/value members of a JSON object, separated
by a comma and a space as `json.dumps` does. -/
def dumpMembers : List (String × JVal) → List Char
  | [] => []
  | (k, v) :: fs =>
    ('"' :: (escChars k.data ++ ('"' :: ':' :: ' ' :: dumpVal v)))
      ++ (match fs with
          | [] => []
          | f :: fs2 => ',' :: ' ' :: dumpMembers (f :: fs2))
end

/-- Serialization of a single `"key": value` member. -/
def dumpEntry (k : String) (v : JVal) : List Char :=
  '"' :: (escChars k.data ++ ('"' :: ':' :: ' ' :: dumpVal v))

theorem dumpMembers_single (k : String) (v : JVal) :
    dumpMembers [(k, v)] = dumpEntry k v := by
  simp [dumpMembers, dumpEntry]

theorem dumpMembers_cons2 (k : String) (v : JVal) (f : String × JVal)
    (fs : List (String × JVal)) :
    dumpMembers ((k, v) :: f :: fs) = dumpEntry k v ++ (',' :: ' ' :: dumpMembers (f :: fs)) :=
  rfl

mutual
/-- Fuel needed by the parser to reconstruct a value. -/
def jfuel : JVal → Nat
  | .jobj fs => jfuelMembers fs + 1
  | _ => 1

/-- Fuel needed by the parser to reconstruct an object's members. -/
def jfuelMembers : List (String × JVal) → Nat
  | [] => 1
  | (_, v) :: fs => max (jfuel v) (jfuelMembers fs) + 1
end

/-- Consume an expected literal character sequence. -/
def dropLit : List Char → List Char → Option (List Char)
  | [], cs => some cs
  | l :: ls, c :: cs => if c = l then dropLit ls cs else none
  | _ :: _, [] => none

/-- Decimal digit test, by code point (same truth value as Python's
`str.isdigit` on ASCII and as `Char.isDigit`). -/
def isDig (c : Char) : Bool := 48 ≤ c.toNat && c.toNat ≤ 57

/-- Numeric value of a decimal digit character. -/
def digitVal (c : Char) : Nat := c.toNat - 48

/-- Split off the leading run of decimal digits. -/
def spanDigits : List Char → (List Char × List Char)
  | [] => ([], [])
  | c :: cs =>
    if isDig c then
      let p := spanDigits cs
      (c :: p.1, p.2)
    else ([], c :: cs)

/-- Natural number denoted by a digit sequence, most significant first. -/
def digitsToNat (ds : List Char) : Nat :=
  ds.foldl (fun a c => a * 10 + digitVal c) 0

/-- Does the byte sequence start with a decimal digit? -/
def digitHead : List Char → Bool
  | [] => false
  | c :: _ => isDig c

/-- Parse the remainder of a JSON string (after the opening quote),
undoing `escChars`; returns the content and the rest of the input. -/
def parseStrBody (cs : List Char) : Option (List Char × List Char) :=
  match cs with
  | [] => none
  | c :: rest =>
    if c = '"' then some ([], rest)
    else if c = '\\' then
      match rest with
      | [] => none
      | e :: rest2 => (parseStrBody rest2).map fun p => (e :: p.1, p.2)
    else (parseStrBody rest).map fun p => (c :: p.1, p.2)

mutual
/-- Fuel-based model of the `json.loads` value parser, specialised to
the grammar emitted by `dumpVal`. -/
def parseVal : Nat → List Char → Option (JVal × List Char)
  | 0, _ => none
  | _ + 1, [] => none
  | fuel + 1, c :: rest =>
    if c = '"' then
      (parseStrBody rest).map fun p => (.jstr (String.mk p.1), p.2)
    else if c = '\x7b' then
      match rest with
      | [] => none
      | r0 :: rr =>
        if r0 = '\x7d' then some (.jobj [], rr)
        else (parseMembers fuel (r0 :: rr)).map fun p => (.jobj p.1, p.2)
    else if c = 'n' then
      (dropLit ['u', 'l', 'l'] rest).map fun r => (.jnull, r)
    else if c = 't' then
      (dropLit ['r', 'u', 'e'] rest).map fun r => (.jbool true, r)
    else if c = 'f' then
      (dropLit ['a', 'l', 's', 'e'] rest).map fun r => (.jbool false, r)
    else if c = '-' then
      match rest with
      | [] => none
      | r0 :: rr =>
        if isDig r0 then
          let p := spanDigits (r0 :: rr)
          some (.jint (-(digitsToNat p.1 : Int)), p.2)
        else none
    else if isDig c then
      let p := spanDigits (c :: rest)
      some (.jint (digitsToNat p.1 : Int), p.2)
    else none

/-- Fuel-based parser for the nonempty member list of a JSON object. -/
def parseMembers : Nat → List Char → Option (List (String × JVal) × List Char)
  | 0, _ => none
  | _ + 1, [] => none
  | fuel + 1, c :: rest =>
    if c = '"' then
      match parseStrBody rest with
      | none => none
      | some (k, r1) =>
        match r1 with
        | c1 :: c2 :: r2 =>
          if c1 = ':' ∧ c2 = ' ' then
            match parseVal fuel r2 with
            | none => none
            | some (v, r3) =>
              match r3 with
              | [] => none
              | d :: r4 =>
                if d = '\x7d' then some ([(String.mk k, v)], r4)
                else
                  match r4 with
                  | [] => none
                  | e :: r5 =>
                    if d = ',' ∧ e = ' ' then
                      (parseMembers fuel r5).map fun p =>
                        ((String.mk k, v) :: p.1, p.2)
                    else none
          else none
        | _ => none
    else none
end

/-- Model of `json.loads`: the whole input must parse as one value
(Python raises on trailing data). -/
def jsonLoads (cs : List Char) : Option JVal :=
  match parseVal (cs.length + 1) cs with
  | some (v, []) => some v
  | _ => none

/-! Inversion of the JSON serializer: `parseVal` undoes `dumpVal`. -/

theorem toNat_ofNat_valid (m : Nat) (h : m < 55296) : (Char.ofNat m).toNat = m := by
  have hv : m.isValidChar := Or.inl h
  rw [Char.ofNat, dif_pos hv]
  rfl

theorem dropLit_append (ls cs : List Char) : dropLit ls (ls ++ cs) = some cs := by
  induction ls with
  | nil => rfl
  | cons l ls ih => simp [dropLit, ih]

theorem isDig_iff (c : Char) : isDig c = true ↔ 48 ≤ c.toNat ∧ c.toNat ≤ 57 := by
  simp [isDig]

theorem natCharsGo_spec : ∀ (fuel n : Nat), n < fuel →
    natCharsGo fuel n ≠ [] ∧ (∀ c ∈ natCharsGo fuel n, isDig c = true) ∧
      digitsToNat (natCharsGo fuel n) = n := by
  intro fuel
  induction fuel with
  | zero => omega
  | succ f ih =>
    intro n hn
    by_cases h : n < 10
    · rw [natCharsGo, if_pos h]
      refine ⟨by simp, ?_, ?_⟩
      · intro c hc
        simp only [List.mem_singleton] at hc
        subst hc
        rw [isDig_iff, toNat_ofNat_valid _ (by omega)]
        omega
      · simp [digitsToNat, digitVal, toNat_ofNat_valid (48 + n) (by omega)]
    · rw [natCharsGo, if_neg h]
      have hdivlt : n / 10 < f := by
        have h1 : n / 10 < n := Nat.div_lt_self (by omega) (by omega)
        omega
      obtain ⟨hne, hdig, hval⟩ := ih (n / 10) hdivlt
      refine ⟨by simp, ?_, ?_⟩
      · intro c hc
        rcases List.mem_append.1 hc with hc | hc
        · exact hdig c hc
        · simp only [List.mem_singleton] at hc
          subst hc
          rw [isDig_iff, toNat_ofNat_valid _ (by omega)]
          omega
      · have hm : n % 10 < 10 := Nat.mod_lt _ (by omega)
        simp only [digitsToNat, List.foldl_append] at *
        simp only [List.foldl_cons, List.foldl_nil]
        rw [hval]
        simp [digitVal, toNat_ofNat_valid (48 + n % 10) (by omega)]
        omega

theorem natChars_spec (n : Nat) :
    natChars n ≠ [] ∧ (∀ c ∈ natChars n, isDig c = true) ∧
      digitsToNat (natChars n) = n :=
  natCharsGo_spec (n + 1) n (Nat.lt_succ_self n)

theorem digit_ne_special {c : Char} (h : isDig c = true) :
    c ≠ '"' ∧ c ≠ '\x7b' ∧ c ≠ 'n' ∧ c ≠ 't' ∧ c ≠ 'f' ∧ c ≠ '-' := by
  rw [isDig_iff] at h
  refine ⟨?_, ?_, ?_, ?_, ?_, ?_⟩ <;>
    (intro hc; subst hc; revert h; decide)

theorem spanDigits_append {ds rest : List Char}
    (hds : ∀ c ∈ ds, isDig c = true) (hrest : digitHead rest = false) :
    spanDigits (ds ++ rest) = (ds, rest) := by
  induction ds with
  | nil =>
    cases rest with
    | nil => rfl
    | cons c cs =>
      simp only [digitHead] at hrest
      simp [spanDigits, hrest]
  | cons c cs ih =>
    have hc : isDig c = true := hds c (List.mem_cons_self _ _)
    simp only [List.cons_append, spanDigits, hc, if_pos, List.append_eq]
    rw [ih (fun d hd => hds d (List.mem_cons_of_mem _ hd))]

theorem parseStrBody_esc (s rest : List Char) :
    parseStrBody (escChars s ++ '"' :: rest) = some (s, rest) := by
  induction s with
  | nil =>
    rw [escChars, List.nil_append, parseStrBody.eq_def]
    simp
  | cons c cs ih =>
    by_cases h : c = '"' ∨ c = '\\'
    · have he : escChars (c :: cs) = '\\' :: c :: escChars cs := by
        simp [escChars, escChar, h]
      rw [he, List.cons_append, List.cons_append, parseStrBody.eq_def]
      simp only [ih]
      rw [if_neg (by decide : ¬('\\' : Char) = '"')]
      rfl
    · have h1 : ¬ c = '"' := fun hc => h (Or.inl hc)
      have h2 : ¬ c = '\\' := fun hc => h (Or.inr hc)
      have he : escChars (c :: cs) = c :: escChars cs := by
        simp [escChars, escChar, h]
      rw [he, List.cons_append, parseStrBody.eq_def]
      simp only [if_neg h1, if_neg h2, ih]
      rfl

theorem stringMk_data (s : String) : String.mk s.data = s := rfl

theorem jfuelMembers_cons (k : String) (v : JVal) (fs : List (String × JVal)) :
    jfuelMembers ((k, v) :: fs) = max (jfuel v) (jfuelMembers fs) + 1 := by
  rw [jfuelMembers]

mutual
theorem parseVal_dump : ∀ (v : JVal) (fuel : Nat) (rest : List Char),
    jfuel v ≤ fuel → digitHead rest = false →
    parseVal fuel (dumpVal v ++ rest) = some (v, rest)
  | .jnull, fuel, rest, hf, _ => by
    cases fuel with
    | zero => simp [jfuel] at hf
    | succ f =>
      simp only [dumpVal, List.cons_append, List.nil_append]
      simp only [parseVal.eq_def]
      rw [if_neg (by decide), if_neg (by decide), if_pos trivial]
      rw [show ('u' :: 'l' :: 'l' :: rest) = ['u', 'l', 'l'] ++ rest from rfl,
        dropLit_append]
      rfl
  | .jbool true, fuel, rest, hf, _ => by
    cases fuel with
    | zero => simp [jfuel] at hf
    | succ f =>
      simp only [dumpVal, List.cons_append, List.nil_append]
      simp only [parseVal.eq_def]
      rw [if_neg (by decide), if_neg (by decide), if_neg (by decide), if_pos trivial]
      rw [show ('r' :: 'u' :: 'e' :: rest) = ['r', 'u', 'e'] ++ rest from rfl,
        dropLit_append]
      rfl
  | .jbool false, fuel, rest, hf, _ => by
    cases fuel with
    | zero => simp [jfuel] at hf
    | succ f =>
      simp only [dumpVal, List.cons_append, List.nil_append]
      simp only [parseVal.eq_def]
      rw [if_neg (by decide), if_neg (by decide), if_neg (by decide),
        if_neg (by decide), if_pos trivial]
      rw [show ('a' :: 'l' :: 's' :: 'e' :: rest) = ['a', 'l', 's', 'e'] ++ rest from rfl,
        dropLit_append]
      rfl
  | .jstr s, fuel, rest, hf, _ => by
    cases fuel with
    | zero => simp [jfuel] at hf
    | succ f =>
      simp only [dumpVal, List.cons_append, List.append_assoc, List.singleton_append]
      simp only [parseVal.eq_def]
      rw [if_pos trivial, parseStrBody_esc]
      rfl
  | .jint n, fuel, rest, hf, hrest => by
    cases fuel with
    | zero => simp [jfuel] at hf
    | succ f =>
      obtain ⟨hne, hdig, hval⟩ := natChars_spec n.natAbs
      obtain ⟨d, ds, hds⟩ : ∃ d ds, natChars n.natAbs = d :: ds := by
        cases h : natChars n.natAbs with
        | nil => exact absurd h hne
        | cons d ds => exact ⟨d, ds, rfl⟩
      have hd : isDig d = true := hdig d (by rw [hds]; exact List.mem_cons_self _ _)
      have hspan : spanDigits ((d :: ds) ++ rest) = (d :: ds, rest) :=
        spanDigits_append (fun c hc => hdig c (hds ▸ hc)) hrest
      by_cases hneg : n < 0
      · simp only [dumpVal, intChars, if_pos hneg, hds, List.cons_append]
        simp only [parseVal.eq_def]
        rw [if_neg (by decide), if_neg (by decide), if_neg (by decide),
          if_neg (by decide), if_neg (by decide), if_pos trivial]
        rw [if_pos hd]
        rw [show (d :: (ds ++ rest)) = (d :: ds) ++ rest from rfl, hspan]
        have hval2 : digitsToNat (d :: ds) = n.natAbs := hds ▸ hval
        simp only [hval2]
        rw [show -((n.natAbs : Nat) : Int) = n by omega]
      · obtain ⟨h1, h2, h3, h4, h5, h6⟩ := digit_ne_special hd
        simp only [dumpVal, intChars, if_neg hneg, hds, List.cons_append]
        simp only [parseVal.eq_def]
        rw [if_neg h1, if_neg h2, if_neg h3, if_neg h4, if_neg h5, if_neg h6,
          if_pos hd]
        rw [show (d :: (ds ++ rest)) = (d :: ds) ++ rest from rfl, hspan]
        have hval2 : digitsToNat (d :: ds) = n.natAbs := hds ▸ hval
        simp only [hval2]
        rw [show ((n.natAbs : Nat) : Int) = n by omega]
  | .jobj [], fuel, rest, hf, _ => by
    cases fuel with
    | zero => simp [jfuel] at hf
    | succ f =>
      simp only [dumpVal, List.cons_append, List.nil_append]
      simp only [parseVal.eq_def]
      rw [if_neg (by decide), if_pos trivial, if_pos trivial]
  | .jobj (fd :: fds), fuel, rest, hf, _ => by
    cases fuel with
    | zero =>
      rw [jfuel] at hf
      omega
    | succ f =>
      have hfm : jfuelMembers (fd :: fds) ≤ f := by
        rw [jfuel] at hf
        omega
      obtain ⟨t, ht⟩ : ∃ t, dumpMembers (fd :: fds) = '"' :: t := by
        obtain ⟨k, v⟩ := fd
        cases fds with
        | nil =>
          exact ⟨escChars k.data ++ ('"' :: ':' :: ' ' :: dumpVal v),
            by simp [dumpMembers, dumpEntry]⟩
        | cons f2 fs2 =>
          exact ⟨escChars k.data ++ ('"' :: ':' :: ' ' :: dumpVal v)
              ++ (',' :: ' ' :: dumpMembers (f2 :: fs2)),
            by simp [dumpMembers, dumpEntry]⟩
      simp only [dumpVal, ht, List.cons_append, List.append_assoc,
        List.singleton_append, List.nil_append]
      simp only [parseVal.eq_def]
      rw [if_neg (by decide), if_pos trivial, if_neg (by decide)]
      rw [show ('"' :: (t ++ '\x7d' :: rest)) = ('"' :: t) ++ '\x7d' :: rest from rfl,
        ← ht]
      rw [parseMembers_dump (fd :: fds) f rest (by simp) hfm]
      rfl

theorem parseMembers_dump : ∀ (fs : List (String × JVal)) (fuel : Nat) (rest : List Char),
    fs ≠ [] → jfuelMembers fs ≤ fuel →
    parseMembers fuel (dumpMembers fs ++ '\x7d' :: rest) = some (fs, rest)
  | [], _, _, hne, _ => absurd rfl hne
  | [(k, v)], fuel, rest, _, hf => by
    cases fuel with
    | zero => rw [jfuelMembers_cons] at hf; omega
    | succ f =>
      have hfv : jfuel v ≤ f := by
        rw [jfuelMembers_cons] at hf
        have h1 := Nat.le_max_left (jfuel v) (jfuelMembers [])
        omega
      have hv := parseVal_dump v f ('\x7d' :: rest) hfv (by rfl)
      simp only [dumpMembers, dumpEntry, List.cons_append, List.append_assoc,
        List.nil_append, List.append_nil]
      rw [parseMembers.eq_def]
      simp only [parseStrBody_esc, hv, stringMk_data, and_self, if_true]
  | (k, v) :: f2 :: fs2, fuel, rest, _, hf => by
    cases fuel with
    | zero => rw [jfuelMembers_cons] at hf; omega
    | succ f =>
      have hfv : jfuel v ≤ f := by
        rw [jfuelMembers_cons] at hf
        have h1 := Nat.le_max_left (jfuel v) (jfuelMembers (f2 :: fs2))
        omega
      have hfm : jfuelMembers (f2 :: fs2) ≤ f := by
        rw [jfuelMembers_cons] at hf
        have h1 := Nat.le_max_right (jfuel v) (jfuelMembers (f2 :: fs2))
        omega
      have hv := parseVal_dump v f
        (',' :: ' ' :: (dumpMembers (f2 :: fs2) ++ '\x7d' :: rest)) hfv (by rfl)
      have hm := parseMembers_dump (f2 :: fs2) f rest (by simp) hfm
      simp only [dumpMembers, dumpEntry, List.cons_append, List.append_assoc,
        List.nil_append, List.append_nil]
      rw [parseMembers.eq_def]
      simp only [parseStrBody_esc, hv, hm, stringMk_data, and_self, if_true,
        show ((',' : Char) = '\x7d') = False by simp, if_false]
      rfl
end

mutual
theorem jfuel_le_dump : ∀ (v : JVal), jfuel v ≤ (dumpVal v).length + 1
  | .jnull => by simp [jfuel, dumpVal]
  | .jbool true => by simp [jfuel, dumpVal]
  | .jbool false => by simp [jfuel, dumpVal]
  | .jint n => by simp [jfuel]
  | .jstr s => by simp [jfuel]
  | .jobj [] => by simp [jfuel, jfuelMembers, dumpVal]
  | .jobj (fd :: fds) => by
    have h := jfuelMembers_le_dump (fd :: fds)
    rw [jfuel]
    rw [show dumpVal (.jobj (fd :: fds))
          = '\x7b' :: (dumpMembers (fd :: fds) ++ ['\x7d']) from rfl]
    simp only [List.length_cons, List.length_append, List.length_singleton]
    omega

theorem jfuelMembers_le_dump :
    ∀ (fs : List (String × JVal)), jfuelMembers fs ≤ (dumpMembers fs).length + 1
  | [] => by simp [jfuelMembers, dumpMembers]
  | [(k, v)] => by
    have h := jfuel_le_dump v
    rw [jfuelMembers_cons]
    rw [dumpMembers_single]
    rw [dumpEntry]
    have hm : max (jfuel v) (jfuelMembers []) ≤ jfuel v + 1 := by
      rw [jfuelMembers]
      have h1 : 1 ≤ jfuel v := by cases v <;> simp [jfuel]
      omega
    simp only [List.length_cons, List.length_append]
    omega
  | (k, v) :: f2 :: fs2 => by
    have h1 := jfuel_le_dump v
    have h2 := jfuelMembers_le_dump (f2 :: fs2)
    rw [jfuelMembers_cons]
    rw [dumpMembers_cons2]
    rw [dumpEntry]
    have hm : max (jfuel v) (jfuelMembers (f2 :: fs2))
        ≤ jfuel v + jfuelMembers (f2 :: fs2) := by omega
    simp only [List.length_cons, List.length_append]
    omega
end

theorem jsonLoads_dump (v : JVal) : jsonLoads (dumpVal v) = some v := by
  have h := parseVal_dump v ((dumpVal v).length + 1) []
    (le_trans (jfuel_le_dump v) (by omega)) rfl
  rw [List.append_nil] at h
  simp [jsonLoads, h]

/-! SQLite `LIKE` operator, used by `TaskQueue.pop` for its task-kind
filter (`task LIKE '__type___<n>%'`). -/

/-- ASCII lower-casing, the case folding SQLite's `LIKE` applies. -/
def lowerAscii (c : Char) : Char :=
  if 65 ≤ c.toNat ∧ c.toNat ≤ 90 then Char.ofNat (c.toNat + 32) else c

/-- SQLite `LIKE` pattern matching with structural fuel (any fuel
above `p.length + s.length` suffices): `_` matches any single
character, `%` any sequence, other characters match
case-insensitively (ASCII). -/
def likeMatchGo : Nat → List Char → List Char → Bool
  | 0, _, _ => false
  | fuel + 1, p, s =>
    match p, s with
    | [], s => s.isEmpty
    | c :: ps, s =>
      if c = '%' then
        likeMatchGo fuel ps s ||
          (match s with
           | [] => false
           | _ :: s2 => likeMatchGo fuel (c :: ps) s2)
      else
        match s with
        | [] => false
        | d :: s2 =>
          if c = '_' then likeMatchGo fuel ps s2
          else (lowerAscii c = lowerAscii d) && likeMatchGo fuel ps s2

/-- SQLite `LIKE` pattern matching. -/
def likeMatch (p s : List Char) : Bool :=
  likeMatchGo (p.length + s.length + 1) p s

/-- The pattern `'__type___<n>%'` from `TaskQueue.pop` (two wildcard
characters, the literal `type`, three wildcards, the decimal task-type
tag, then anything). -/
def typePattern (n : Nat) : List Char :=
  '_' :: '_' :: 't' :: 'y' :: 'p' :: 'e' :: '_' :: '_' :: '_' :: (natChars n ++ ['%'])

/-- Model of `task LIKE '__type___<n>%'` applied to a task cell. -/
def likeTypeMatch (n : Nat) (cell : String) : Bool :=
  likeMatch (typePattern n) cell.data

/-! Task model: `qop/tasks.py` (`Task` and its subclasses) and
`qop/converters.py` (`Converter` and its subclasses). -/

/-- Model of `Path(x).resolve()` as used by the task constructors.
Paths enqueued by the CLI are already absolute and resolved, and
resolution is idempotent, so on the strings stored in tasks it acts as
the identity; the model keeps the call sites explicit. -/
def pathResolve (s : String) : String := s

/-- Python converter objects, by class and `__dict__` content.
`extra_type` records the stray `type` key that
`Converter.from_dict` injects into `__dict__` via
`conv.__dict__.update(x)`; a freshly constructed `CopyConverter` has
no such key (`extra_type = none`).  Lean equality of `ConvObj`
coincides with Python `==`, which compares `__dict__`. -/
inductive ConvObj where
  | copyC (remove_art : Bool) (extra_type : Option Int)
  | pydubC (remove_art : Bool) (format : String) (codec : Option String)
      (bitrate : Option String) (parameters : List String)
      (tags : Option String) (id3v2_version : String)
  deriving DecidableEq, Repr

/-- Model of `CopyConverter.to_dict` / `PydubConverter.to_dict`.
`PydubConverter.to_dict` evaluates `ConverterType.PYDUB`, a member that
does not exist in `qop/constants.py` (the enum has `COPY`, `MP3`,
`OGG`), so it raises `AttributeError`. -/
def ConvObj.to_dict : ConvObj → Except PyExc Dict
  | .copyC ra _ => .ok [("type", .jint 0), ("remove_art", .jbool ra)]
  | .pydubC .. => .error .attributeError

/-- Model of `Converter.from_dict`: `ConverterType(x['type'])`
(`KeyError` when absent, `ValueError` for a non-member), dispatch on
the member (`t == ConverterType.PYDUB` also raises `AttributeError`
because the enum has no `PYDUB`), then `conv.__dict__.update(x)`
which copies `remove_art` and injects the `type` key.
The model restricts `remove_art` values to booleans, the only shape
the repo serializes. -/
def ConvObj.from_dict (d : Dict) : Except PyExc ConvObj :=
  match dictLookup d "type" with
  | none => .error .keyError
  | some (.jint 0) =>
    match dictLookup d "remove_art" with
    | none => .ok (.copyC false (some 0))
    | some (.jbool b) => .ok (.copyC b (some 0))
    | some _ => .error .typeError
  | some (.jint 1) => .error .attributeError
  | some (.jint 2) => .error .attributeError
  | some _ => .error .valueError

/-- Python task objects, one constructor per `Task` subclass, fields in
`__dict__` insertion order (the base `Task.__init__` assigns `type`
first, so `type` is always the first key).  Lean equality coincides
with Python `Task.__eq__`, which compares `__dict__` (the `type`
values of distinct variants differ, and `ConvObj` equality likewise
mirrors `__dict__` comparison).  `SleepTask.seconds` is modelled as an
integer (floats are outside the embedding). -/
inductive TaskData where
  | baseT
  | echo (msg : String)
  | fileT (src : String)
  | deleteT (src : String)
  | copy (src dst : String)
  | move (src dst : String) (parent_oid : Option String)
  | convertSimple (src dst : String) (converter : ConvObj)
  | convert (src dst : String) (converter : ConvObj) (tmpdst : String)
  | failT
  | sleepT (seconds : Int)
  deriving DecidableEq, Repr

/-- JSON value of an optional string (`None` becomes `null`). -/
def optStr : Option String → JVal
  | none => .jnull
  | some s => .jstr s

/-- Model of `CONVERT_CACHE_DIR`
(`appdirs.user_cache_dir("qop")/convert_temp`); the concrete prefix is
irrelevant to every claim, only that `ConvertTask.__init__` appends a
fresh `uuid4().hex` to it. -/
def convertCacheDir : String := "/cache/qop/convert_temp"

/-- Model of `Task.to_dict` (which copies `__dict__` and stringifies
the `src`/`dst` — and for `ConvertTask` also `tmpdst` — path fields).
`TaskType` tags: ECHO=1, FILE=2, DELETE=3, COPY=4, MOVE=5,
CONVERT_SIMPLE=6, FAIL=7, SLEEP=8, CONVERT=9; the abstract `FileTask`
leaves `self.type = None`.  Serializing a convert task serializes the
converter, which raises for `PydubConverter` (see
`ConvObj.to_dict`). -/
def TaskData.to_dict : TaskData → Except PyExc Dict
  | .baseT => .ok [("type", .jint 0)]
  | .echo msg => .ok [("type", .jint 1), ("msg", .jstr msg)]
  | .fileT src => .ok [("type", .jnull), ("src", .jstr src)]
  | .deleteT src => .ok [("type", .jint 3), ("src", .jstr src)]
  | .copy src dst => .ok [("type", .jint 4), ("src", .jstr src), ("dst", .jstr dst)]
  | .move src dst parent_oid =>
    .ok [("type", .jint 5), ("src", .jstr src), ("dst", .jstr dst),
      ("parent_oid", optStr parent_oid)]
  | .convertSimple src dst conv => do
    let cd ← conv.to_dict
    .ok [("type", .jint 6), ("src", .jstr src), ("dst", .jstr dst),
      ("converter", .jobj cd)]
  | .convert src dst conv tmpdst => do
    let cd ← conv.to_dict
    .ok [("type", .jint 9), ("src", .jstr src), ("dst", .jstr dst),
      ("converter", .jobj cd), ("tmpdst", .jstr tmpdst)]
  | .failT => .ok [("type", .jint 7), ("msg", .jstr "This task always fails")]
  | .sleepT seconds => .ok [("type", .jint 8), ("seconds", .jint seconds)]

/-- Required string field of a task dict. -/
def getStr (d : Dict) (k : String) : Except PyExc String :=
  match dictLookup d k with
  | some (.jstr s) => .ok s
  | some _ => .error .typeError
  | none => .error .keyError

/-- Required optional-string field (`parent_oid`). -/
def getOptStr (d : Dict) (k : String) : Except PyExc (Option String) :=
  match dictLookup d k with
  | some .jnull => .ok none
  | some (.jstr s) => .ok (some s)
  | some _ => .error .typeError
  | none => .error .keyError

/-- Required object-valued field (`converter`). -/
def getObj (d : Dict) (k : String) : Except PyExc Dict :=
  match dictLookup d k with
  | some (.jobj o) => .ok o
  | some _ => .error .typeError
  | none => .error .keyError

/-- Required integer field (`seconds`, modelled as an int). -/
def getInt (d : Dict) (k : String) : Except PyExc Int :=
  match dictLookup d k with
  | some (.jint n) => .ok n
  | some _ => .error .typeError
  | none => .error .keyError

/-- Model of `Task.from_dict`: dispatch on the numeric `type` tag and
construct the matching subclass (which re-resolves paths).
Deserializing a `ConvertTask` calls `ConvertTask.__init__`, which
ignores any serialized `tmpdst` and draws a fresh staging path
`CONVERT_CACHE_DIR/uuid4().hex`; the fresh hex is passed in as
`freshHex` because it is random.  A missing or unknown tag raises
`UnknownTaskTypeError` (`type` is `None` for a serialized `FileTask`,
which therefore matches no branch). -/
def TaskData.from_dict (d : Dict) (freshHex : String) : Except PyExc TaskData :=
  match dictLookup d "type" with
  | none => .error .keyError
  | some (.jint 0) => .ok .baseT
  | some (.jint 1) => do
    let msg ← getStr d "msg"
    .ok (.echo msg)
  | some (.jint 2) => do
    let src ← getStr d "src"
    .ok (.fileT (pathResolve src))
  | some (.jint 3) => do
    let src ← getStr d "src"
    .ok (.deleteT (pathResolve src))
  | some (.jint 4) => do
    let src ← getStr d "src"
    let dst ← getStr d "dst"
    .ok (.copy (pathResolve src) (pathResolve dst))
  | some (.jint 5) => do
    let src ← getStr d "src"
    let dst ← getStr d "dst"
    let parent_oid ← getOptStr d "parent_oid"
    .ok (.move (pathResolve src) (pathResolve dst) parent_oid)
  | some (.jint 6) => do
    let src ← getStr d "src"
    let dst ← getStr d "dst"
    let cd ← getObj d "converter"
    let conv ← ConvObj.from_dict cd
    .ok (.convertSimple (pathResolve src) (pathResolve dst) conv)
  | some (.jint 9) => do
    let src ← getStr d "src"
    let dst ← getStr d "dst"
    let cd ← getObj d "converter"
    let conv ← ConvObj.from_dict cd
    .ok (.convert (pathResolve src) (pathResolve dst) conv
      (convertCacheDir ++ "/" ++ freshHex))
  | some (.jint 7) => .ok .failT
  | some (.jint 8) => do
    let seconds ← getInt d "seconds"
    .ok (.sleepT seconds)
  | some _ => .error .unknownTaskType

/-- Model of `Task.to_json` (`json.dumps(self.to_dict())`). -/
def taskToJson (t : TaskData) : Except PyExc String :=
  (t.to_dict).map fun d => String.mk (dumpVal (.jobj d))

/-- Model of `Task.from_dict(json.loads(s))` as `TaskQueue.pop` applies
it to the stored task cell. -/
def taskFromJson (s : String) (freshHex : String) : Except PyExc TaskData :=
  match jsonLoads s.data with
  | some (.jobj d) => TaskData.from_dict d freshHex
  | some _ => .error .typeError
  | none => .error .valueError

/-! Persistent queue: `TaskQueue` in `qop/tasks.py`, an sqlite3 table
`tasks (priority INTEGER NOT NULL, task TEXT NOT NULL, status INTEGER
NOT NULL, lock TEXT, parent INTEGER, UNIQUE(task, status))`. -/

/-- Status codes from `qop/constants.py` (`Status` IntEnum). -/
def stFAIL : Int := -1

/-- Status `PENDING = 0`. -/
def stPENDING : Int := 0

/-- Status `OK = 1`. -/
def stOK : Int := 1

/-- Status `SKIP = 2`. -/
def stSKIP : Int := 2

/-- Status `ACTIVE = 3`. -/
def stACTIVE : Int := 3

/-- One row of the `tasks` table.  `rowid` is sqlite's implicit
`_ROWID_`; `task` holds the JSON serialization of the task. -/
structure Row where
  rowid : Nat
  priority : Int
  task : String
  status : Int
  lock : Option String
  parent : Option Nat
  deriving DecidableEq, Repr

/-- The queue state: the rows of the `tasks` table, in rowid scan
order. -/
abbrev QState := List Row

/-- Fresh `_ROWID_` for an insert (sqlite assigns max existing + 1). -/
def freshRowid (q : QState) : Nat :=
  (q.map Row.rowid).foldr max 0 + 1

/-- Model of the row insertion done by `TaskQueue.put`'s
`INSERT OR REPLACE INTO tasks (priority, task, status, parent)`:
any row conflicting on `UNIQUE(task, status)` with the new
`(task, PENDING)` row is deleted, then the new row is appended with a
fresh rowid and a NULL `lock`. -/
def putRow (q : QState) (cell : String) (priority : Int) (parent : Option Nat) : QState :=
  q.filter (fun r => ¬(r.task = cell ∧ r.status = stPENDING))
    ++ [{ rowid := freshRowid q, priority := priority, task := cell,
          status := stPENDING, lock := none, parent := parent }]

/-- Model of `TaskQueue.put(task, priority=10, parent=None)`: serialize
the task (`task.to_json()` can raise, see `ConvObj.to_dict`) and insert
a PENDING row. -/
def TaskQueue.put (q : QState) (t : TaskData) (priority : Int := 10)
    (parent : Option Nat := none) : Except PyExc QState :=
  (taskToJson t).map fun cell => putRow q cell priority parent

/-- The row update shared by both branches of `TaskQueue.set_status`
(`UPDATE tasks SET status = ?, lock = ? WHERE _ROWID_ = ?`). -/
def markStatus (q : QState) (oid : Nat) (status : Int) (lock : Option String) : QState :=
  q.map fun r =>
    if r.rowid = oid then { r with status := status, lock := lock } else r

/-- Model of `TaskQueue.set_status(oid, status, lock=None)`: switching
to ACTIVE asserts a lock is given and stores it; every other status
asserts no lock is given and clears the column. -/
def TaskQueue.set_status (q : QState) (oid : Nat) (status : Int)
    (lock : Option String := none) : Except PyExc QState :=
  if status = stACTIVE then
    match lock with
    | none => .error .assertionError
    | some l => .ok (markStatus q oid status (some l))
  else
    match lock with
    | some _ => .error .assertionError
    | none => .ok (markStatus q oid status none)

/-- Model of `TaskQueue.reset_active_tasks`
(`UPDATE tasks SET status = PENDING, lock = NULL WHERE status = ACTIVE`). -/
def TaskQueue.reset_active_tasks (q : QState) : QState :=
  q.map fun r =>
    if r.status = stACTIVE then { r with status := stPENDING, lock := none } else r

/-- Model of `TaskQueue.flush(status)`: delete rows matching `status`,
or truncate the table when no status is given. -/
def TaskQueue.flush (q : QState) (status : Option Int) : QState :=
  match status with
  | none => []
  | some st => q.filter fun r => ¬(r.status = st)

/-- Model of `TaskQueue.__init__` acting on the backing store:
`CREATE TABLE IF NOT EXISTS` creates an empty table for a fresh store
file and leaves an existing store's rows untouched; nothing else in
the constructor touches the rows. -/
def TaskQueue.init : Option QState → QState
  | none => []
  | some rows => rows

/-- The kind filter of `TaskQueue.pop`: `task_type_include`,
`task_type_exclude` (at most one set; both `None` means no filter). -/
inductive PopFilter where
  | all
  | includeType (n : Nat)
  | excludeType (n : Nat)
  deriving DecidableEq, Repr

/-- Does a row satisfy the `WHERE` clause of `TaskQueue.pop`'s SELECT
(`status = PENDING` plus the `LIKE '__type___<n>%'` kind filter)? -/
def popCandidate (flt : PopFilter) (r : Row) : Bool :=
  r.status = stPENDING &&
    (match flt with
     | .all => true
     | .includeType n => likeTypeMatch n r.task
     | .excludeType n => !(likeTypeMatch n r.task))

/-- First row of minimal priority in a list (the result of
`ORDER BY priority LIMIT 1`; ties are broken by scan order, which the
spec leaves unspecified). -/
def selectMinPriority : List Row → Option Row
  | [] => none
  | r :: rs =>
    match selectMinPriority rs with
    | none => some r
    | some m => if m.priority < r.priority then some m else some r

/-- The row chosen by `TaskQueue.pop`'s SELECT. -/
def popSelect (q : QState) (flt : PopFilter) : Option Row :=
  selectMinPriority (q.filter (popCandidate flt))

/-- Steps 4–5 of `TaskQueue.pop`: re-read the row by `_ROWID_`
(`SELECT lock, task FROM tasks WHERE _ROWID_ = ?`), raise
`AlreadyUnderEvaluationError` when the stored lock differs from the
lock generated for this attempt, otherwise deserialize the task and
attach the record id.  Kept separate from `pop` so that the re-read
can be stated against any intervening state. -/
def popFinish (q : QState) (oid : Nat) (lock : String) (freshHex : String) :
    QState × Except PyExc (TaskData × Nat) :=
  match q.find? (fun r => r.rowid = oid) with
  | none => (q, .error .indexError)
  | some row =>
    if row.lock ≠ some lock then (q, .error .alreadyClaimed)
    else
      match taskFromJson row.task freshHex with
      | .ok t => (q, .ok (t, oid))
      | .error e => (q, .error e)

/-- Model of `TaskQueue.pop(task_type_include, task_type_exclude)`:
select the PENDING row matching the kind filter with the lowest
priority (`IndexError` when there is none), generate a lock token
(`uuid.uuid4().hex`, passed in as `lock` because it is random), set
the row ACTIVE with that lock via `set_status`, then re-read and
finish.  `freshHex` feeds the deserializer (see
`TaskData.from_dict`). -/
def TaskQueue.pop (q : QState) (flt : PopFilter) (lock : String)
    (freshHex : String) : QState × Except PyExc (TaskData × Nat) :=
  match popSelect q flt with
  | none => (q, .error .indexError)
  | some r => popFinish (markStatus q r.rowid stACTIVE (some lock)) r.rowid lock freshHex

/-! Worker loop pieces (`TaskQueue.__start_run_process`) and the task
`spawn` hook. -/

/-- Model of the `spawn` attribute lookup and call on a popped task:
only `ConvertTask` defines `spawn` (every other class raises
`AttributeError`, swallowed by the worker); `ConvertTask.spawn` raises
`ValueError` when the task has no `oid` and otherwise returns
`MoveTask(tmpdst, dst, parent_oid=oid)`.  The `oid` attached by `pop`
is `str(_ROWID_)`, hence the decimal string in `parent_oid`. -/
def TaskData.spawn : TaskData → Option Nat → Except PyExc TaskData
  | .convert _ dst _ tmpdst, some oid =>
    .ok (.move tmpdst dst (some (String.mk (natChars oid))))
  | .convert _ _ _ _, none => .error .valueError
  | _, _ => .error .attributeError

/-- The `parent_oid` attribute of a popped task: an instance attribute
only on `MoveTask`; every other class sees the class attribute
`None`. -/
def TaskData.parentOid : TaskData → Option String
  | .move _ _ po => po
  | _ => none

/-- SQLite comparison of the INTEGER-affinity `_ROWID_` column with a
TEXT value (the worker passes `str` oids): a purely decimal string is
converted to the corresponding integer, anything else matches no
row. -/
def sqliteTextToRowid (s : String) : Option Nat :=
  if s.data ≠ [] ∧ s.data.all isDig then some (digitsToNat s.data) else none

/-- The success path of one worker iteration, after `op.start()`
returned normally (`__start_run_process`): mark the row OK
(`set_status` with no lock, whose assertion passes), try
`op.spawn()` and enqueue the follow-up with `priority=-1` and
`parent=op.oid` (any exception is swallowed), then mark the parent row
OK when `op.parent_oid` is set. -/
def workerOkStep (q : QState) (t : TaskData) (oid : Nat) : QState :=
  let q1 := markStatus q oid stOK none
  let q2 :=
    match t.spawn (some oid) with
    | .ok follow =>
      match TaskQueue.put q1 follow (-1) (some oid) with
      | .ok q' => q'
      | .error _ => q1
    | .error _ => q1
  match t.parentOid with
  | none => q2
  | some po =>
    match sqliteTextToRowid po with
    | some p => markStatus q2 p stOK none
    | none => q2

/-- The failure path of one worker iteration (`op.start()` raised):
mark the row FAIL, and mirror FAIL onto the parent when
`op.parent_oid` is set. -/
def workerFailStep (q : QState) (t : TaskData) (oid : Nat) : QState :=
  let q1 := markStatus q oid stFAIL none
  match t.parentOid with
  | none => q1
  | some po =>
    match sqliteTextToRowid po with
    | some p => markStatus q1 p stFAIL none
    | none => q1

/-! Filesystem model and task validation (`__validate__`). -/

/-- A filesystem entry: a regular file with its content, a directory,
or something that is neither (socket, device, ...). -/
inductive FSNode where
  | file (content : String)
  | dir
  | other
  deriving DecidableEq, Repr

/-- A filesystem: a finite map from absolute paths to entries. -/
abbrev FS := List (String × FSNode)

/-- Entry at a path, if any. -/
def fsLookup (fs : FS) (p : String) : Option FSNode :=
  match fs with
  | [] => none
  | (p', n) :: rest => if p' = p then some n else fsLookup rest p

/-- Model of `Path.exists()`. -/
def fsExists (fs : FS) (p : String) : Bool := (fsLookup fs p).isSome

/-- Model of `Path.is_file()`. -/
def fsIsFile (fs : FS) (p : String) : Bool :=
  match fsLookup fs p with
  | some (.file _) => true
  | _ => false

/-- Model of `Path.is_dir()`. -/
def fsIsDir (fs : FS) (p : String) : Bool :=
  fsLookup fs p = some .dir

/-- Model of `filecmp.cmp(a, b)` on two existing files: content
equality (the real call compares stat signatures or bytes; the spec
reads it as byte identity).  Comparisons involving non-files are
modelled as unequal. -/
def fileCmp (fs : FS) (a b : String) : Bool :=
  match fsLookup fs a, fsLookup fs b with
  | some (.file ca), some (.file cb) => ca = cb
  | _, _ => false

/-- Model of `FileTask.__validate__`: `FileNotFoundError` when `src`
does not exist, `TypeError` when it is neither a file nor a
directory. -/
def validateFile (fs : FS) (src : String) : Option PyExc :=
  if ¬ fsExists fs src then some .fileNotFound
  else if ¬(fsIsDir fs src ∨ fsIsFile fs src) then some .typeError
  else none

/-- Model of `__validate__` for each task class: the base `Task` (and
Echo/Sleep/Fail) accepts everything; `FileTask`/`DeleteTask` check
`src`; `CopyTask`/`MoveTask` additionally raise
`FileExistsAndIsIdenticalError` or `FileExistsError` when `dst`
exists; `SimpleConvertTask`/`ConvertTask` override with a
`FileNotFoundError`/`FileExistsAndCannotBeComparedError` check.
`none` means validation passed. -/
def validateTask (fs : FS) : TaskData → Option PyExc
  | .baseT => none
  | .echo _ => none
  | .failT => none
  | .sleepT _ => none
  | .fileT src => validateFile fs src
  | .deleteT src => validateFile fs src
  | .copy src dst =>
    (match validateFile fs src with
     | some e => some e
     | none =>
       if fsExists fs dst then
         if fileCmp fs dst src then some .fileExistsIdentical
         else some .fileExistsError
       else none)
  | .move src dst _ =>
    (match validateFile fs src with
     | some e => some e
     | none =>
       if fsExists fs dst then
         if fileCmp fs dst src then some .fileExistsIdentical
         else some .fileExistsError
       else none)
  | .convertSimple src dst _ =>
    if ¬ fsExists fs src then some .fileNotFound
    else if fsExists fs dst then some .cannotCompare
    else none
  | .convert src dst _ _ =>
    if ¬ fsExists fs src then some .fileNotFound
    else if fsExists fs dst then some .cannotCompare
    else none

/-! Daemon request handlers (`QopDaemon.listen` in `qop/daemon.py`). -/

/-- A daemon `StatusMessage` reply to `QUEUE_PUT`, reduced to the
status code and the echoed task payload (`None` when the task could
not even be deserialized and the outer `except` replied). -/
structure PutResp where
  status : Int
  payload : Option TaskData
  deriving DecidableEq, Repr

/-- Is this exception a `FileExistsAndShouldBeSkippedError`?  Its two
subclasses are `FileExistsAndIsIdenticalError` and
`FileExistsAndCannotBeComparedError` (`qop/exceptions.py`). -/
def isSkippedExc (e : PyExc) : Bool :=
  e = .fileExistsIdentical || e = .cannotCompare

/-- Model of the `QUEUE_PUT` branch of `QopDaemon.listen`:
deserialize the task from the command payload (failure is caught by
the outer `except`, which replies FAIL), run `tsk.__validate__()`,
then `queue.put(tsk)` with the default priority 10 and no parent and
reply OK echoing the task.  `FileExistsAndShouldBeSkippedError` replies
SKIP, `FileExistsError` and every other exception reply FAIL; in all
exception branches no row is inserted. -/
def handleQueuePut (fs : FS) (q : QState) (payload : Dict) (freshHex : String) :
    QState × PutResp :=
  match TaskData.from_dict payload freshHex with
  | .error _ => (q, ⟨stFAIL, none⟩)
  | .ok tsk =>
    match validateTask fs tsk with
    | none =>
      match TaskQueue.put q tsk 10 none with
      | .ok q' => (q', ⟨stOK, some tsk⟩)
      | .error _ => (q, ⟨stFAIL, some tsk⟩)
    | some e =>
      if isSkippedExc e then (q, ⟨stSKIP, some tsk⟩)
      else (q, ⟨stFAIL, some tsk⟩)

/-- The attribute names defined on `TaskQueue` (class body of
`qop/tasks.py`): class attributes, instance attributes assigned in
`__init__`, methods and properties.  There is no `start`; processing
is launched by the method named `run`. -/
def taskQueueAttrs : List String :=
  ["transfer_processes", "convert_processes", "max_transfer_processes",
   "max_convert_processes", "con", "path", "put", "pop", "peek", "print",
   "fetch", "reset_active_tasks", "set_status", "run", "stop", "flush",
   "facts", "is_active", "active_processes", "n_total", "n_pending",
   "n_active", "n_ok", "n_fail", "n_skip", "progress"]

/-- Daemon-side process bookkeeping for the worker pools. -/
structure DaemonState where
  queue : QState
  transfer_processes : Nat
  convert_processes : Nat
  deriving DecidableEq, Repr

/-- Model of the `QUEUE_START` branch of `QopDaemon.listen`: it
executes `self.queue.start(ip="127.0.0.1", port=self.port)`.  Python
first resolves the attribute `start` on the `TaskQueue` instance; if
it is absent an `AttributeError` is raised, lands in the handler's
outer `except`, and the daemon replies with a FAIL status message,
spawning nothing.  Only if the attribute existed would the workers be
spawned and OK returned. -/
def handleQueueStart (st : DaemonState) : DaemonState × Int :=
  if taskQueueAttrs.contains "start" then
    ({ st with
        transfer_processes := max st.transfer_processes 1,
        convert_processes := max st.convert_processes 1 }, stOK)
  else (st, stFAIL)

/-- Model of `QopDaemon.__init__` acting on the queue store: construct
the `TaskQueue` at the given path (`new_queue`), then call
`queue.reset_active_tasks()`. -/
def daemonInitQueue (store : Option QState) : QState :=
  TaskQueue.reset_active_tasks (TaskQueue.init store)

/-! Wire protocol: `Message.encode` / `Message.from_bytes`
(`qop/daemon.py`). -/

/-- A `Message`: a JSON body and extra header fields
(`message-class` etc.).  Equality is Python dict equality on both
parts (field order is preserved by every operation modelled here). -/
structure WireMsg where
  body : Dict
  extra_headers : Dict
  deriving DecidableEq, Repr

/-- Python `dict.update`: existing keys are overwritten in place,
new keys are appended in iteration order. -/
def dictUpdate (base extra : Dict) : Dict :=
  (base.map fun kv =>
    match dictLookup extra kv.1 with
    | some v => (kv.1, v)
    | none => kv)
  ++ extra.filter fun kv => (dictLookup base kv.1).isNone

/-- The header dict `Message.encode` builds before merging in the
extra headers. -/
def baseHeader (contentLength : Nat) : Dict :=
  [("content-length", .jint contentLength), ("content-type", .jstr "text/json")]

/-- The encoded body bytes (`bytes(json.dumps(self.body), "utf-8")`). -/
def encodedBody (m : WireMsg) : List Char := dumpVal (.jobj m.body)

/-- The encoded header bytes: `{"content-length": .., "content-type":
"text/json"}` updated with the extra headers, serialized. -/
def encodedHeader (m : WireMsg) : List Char :=
  dumpVal (.jobj (dictUpdate (baseHeader (encodedBody m).length) m.extra_headers))

/-- Model of `Message.encode`: `struct.pack("!H", len(header))`
(an unsigned big-endian 16-bit length, raising `struct.error` when the
header does not fit) followed by the header and body bytes. -/
def Message.encode (m : WireMsg) : Except PyExc (List Char) :=
  let hc := encodedHeader m
  if hc.length < 65536 then
    .ok (Char.ofNat (hc.length / 256) :: Char.ofNat (hc.length % 256)
      :: (hc ++ encodedBody m))
  else .error .structError

/-- Model of `Message.from_bytes`: unpack the 2-byte header length
(`struct.error` on a short buffer), `json.loads` the header slice,
slice the body at `header["content-length"]` bytes and `json.loads`
it, then delete `content-length` from the header and return the
message.  (A negative `content-length` cannot arise from `encode` and
is modelled as an error.) -/
def Message.from_bytes (x : List Char) : Except PyExc WireMsg :=
  match x with
  | b0 :: b1 :: rest =>
    let hl := b0.toNat * 256 + b1.toNat
    match jsonLoads (rest.take hl) with
    | some (.jobj header) =>
      (match dictLookup header "content-length" with
       | some (.jint cl) =>
         if 0 ≤ cl then
           match jsonLoads ((rest.drop hl).take cl.toNat) with
           | some (.jobj body) =>
             .ok ⟨body, header.filter fun kv => ¬(kv.1 = "content-length")⟩
           | _ => .error .valueError
         else .error .valueError
       | _ => .error .keyError)
    | _ => .error .valueError
  | _ => .error .structError

/-- Printable-ASCII test for a string: on such strings the model's
`dumpVal` agrees byte-for-byte with Python's `json.dumps` (which
additionally escapes control and non-ASCII characters). -/
def cleanStr (s : String) : Bool :=
  s.data.all fun c => 32 ≤ c.toNat && c.toNat ≤ 126

mutual
/-- All strings inside a JSON value are printable ASCII. -/
def cleanVal : JVal → Bool
  | .jstr s => cleanStr s
  | .jobj fs => cleanFields fs
  | _ => true

/-- All strings inside an object's members are printable ASCII. -/
def cleanFields : List (String × JVal) → Bool
  | [] => true
  | (k, v) :: fs => cleanStr k && cleanVal v && cleanFields fs
end

/-- All strings in a message are printable ASCII. -/
def cleanMsg (m : WireMsg) : Bool :=
  cleanFields m.body && cleanFields m.extra_headers

/-! Reachable queue states. -/

/-- Queue states reachable from an empty store through the mutating
`TaskQueue` operations. -/
inductive QReachable : QState → Prop where
  | empty : QReachable []
  | put (q : QState) (t : TaskData) (prio : Int) (par : Option Nat) (q' : QState) :
      QReachable q → TaskQueue.put q t prio par = .ok q' → QReachable q'
  | set_status (q : QState) (oid : Nat) (st : Int) (lk : Option String) (q' : QState) :
      QReachable q → TaskQueue.set_status q oid st lk = .ok q' → QReachable q'
  | pop (q : QState) (flt : PopFilter) (lock freshHex : String) :
      QReachable q → QReachable (TaskQueue.pop q flt lock freshHex).1
  | reset (q : QState) :
      QReachable q → QReachable (TaskQueue.reset_active_tasks q)
  | flush (q : QState) (st : Option Int) :
      QReachable q → QReachable (TaskQueue.flush q st)

/-- Queue states reachable from an empty store through the daemon and
its workers: rows are only ever inserted by the `QUEUE_PUT` handler
(default priority 10, no parent) or by the worker's follow-up
enqueue (`priority=-1`, `parent=op.oid`). -/
inductive DReachable : QState → Prop where
  | empty : DReachable []
  | handlerPut (fs : FS) (q : QState) (payload : Dict) (freshHex : String) :
      DReachable q → DReachable (handleQueuePut fs q payload freshHex).1
  | workerOk (q : QState) (t : TaskData) (oid : Nat) :
      DReachable q → DReachable (workerOkStep q t oid)
  | workerFail (q : QState) (t : TaskData) (oid : Nat) :
      DReachable q → DReachable (workerFailStep q t oid)
  | pop (q : QState) (flt : PopFilter) (lock freshHex : String) :
      DReachable q → DReachable (TaskQueue.pop q flt lock freshHex).1
  | reset (q : QState) :
      DReachable q → DReachable (TaskQueue.reset_active_tasks q)
  | flush (q : QState) (st : Option Int) :
      DReachable q → DReachable (TaskQueue.flush q st)

/-! Claim theorems. -/

theorem stringData_mk (l : List Char) : (String.mk l).data = l := rfl

/-- Deserializing a serialized object dict runs `Task.from_dict` on
that dict. -/
theorem taskFromJson_mk (d : Dict) (fresh : String) :
    taskFromJson (String.mk (dumpVal (.jobj d))) fresh = TaskData.from_dict d fresh := by
  unfold taskFromJson
  rw [stringData_mk, jsonLoads_dump]

/-- The non-abstract task variants of the data model that carry no
converter: Echo, Sleep, Fail, Delete, Copy, Move. -/
def plainVariant : TaskData → Bool
  | .echo _ => true
  | .sleepT _ => true
  | .failT => true
  | .deleteT _ => true
  | .copy _ _ => true
  | .move _ _ _ => true
  | _ => false

/-- C3 counterexample: instantiating `TaskQueue` on an existing store
file with one ACTIVE row leaves the row ACTIVE —
`TaskQueue.__init__` only issues `CREATE TABLE IF NOT EXISTS` and
never calls `reset_active_tasks()` (the daemon does, separately). -/
theorem C3_counterexample :
    ¬ ∀ r ∈ TaskQueue.init (some [Row.mk 1 10 "t" stACTIVE (some "L") none]),
      r.status ≠ stACTIVE := by decide

/-- C3 (amended): on daemon construction — which constructs the Queue
and then calls `reset_active_tasks()` — every ACTIVE row is reset to
PENDING, so after a daemon restart no record remains ACTIVE;
`TaskQueue` construction alone does not reset. -/
theorem C3_daemon_restart_resets (store : Option QState) :
    ∀ r ∈ daemonInitQueue store, r.status ≠ stACTIVE := by
  intro r hr
  unfold daemonInitQueue TaskQueue.reset_active_tasks at hr
  obtain ⟨r0, _, heq⟩ := List.mem_map.1 hr
  by_cases h : r0.status = stACTIVE
  · rw [if_pos h] at heq
    rw [← heq]
    exact (by decide : (stPENDING : Int) ≠ stACTIVE)
  · rw [if_neg h] at heq
    rw [← heq]
    exact h

/-- C3 witness: the amended theorem applied to a store holding one
ACTIVE row. -/
theorem C3_witness :
    (Row.mk 1 10 "t" stPENDING none none).status ≠ stACTIVE :=
  C3_daemon_restart_resets (some [Row.mk 1 10 "t" stACTIVE (some "L") none])
    (Row.mk 1 10 "t" stPENDING none none) (by decide)

/-- C4 counterexample: deserializing the serialization of a Convert
task does not return the original task — `Task.from_dict` calls
`ConvertTask.__init__`, which discards the serialized `tmpdst` and
draws a fresh random staging path, and `Converter.from_dict` injects a
stray `type` key into the converter's `__dict__`. -/
theorem C4_counterexample :
    (taskToJson (.convert "/a" "/b" (.copyC false none) "/x/t0")).bind
        (fun cell => taskFromJson cell "f0")
      ≠ .ok (.convert "/a" "/b" (.copyC false none) "/x/t0") := by decide

/-- C4 (amended): for the converter-free task variants (Echo, Sleep,
Fail, Delete, Copy, Move) and every field assignment, deserializing
the JSON serialization yields a task equal to the original; the
convert variants fail the round-trip (see the counterexample). -/
theorem C4_plain_roundtrip (t : TaskData) (freshHex : String)
    (hplain : plainVariant t = true) :
    ∃ cell, taskToJson t = .ok cell ∧ taskFromJson cell freshHex = .ok t := by
  cases t with
  | baseT => simp [plainVariant] at hplain
  | fileT src => simp [plainVariant] at hplain
  | convertSimple src dst conv => simp [plainVariant] at hplain
  | convert src dst conv tmpdst => simp [plainVariant] at hplain
  | echo msg => exact ⟨_, rfl, by rw [taskFromJson_mk]; rfl⟩
  | sleepT seconds => exact ⟨_, rfl, by rw [taskFromJson_mk]; rfl⟩
  | failT => exact ⟨_, rfl, by rw [taskFromJson_mk]; rfl⟩
  | deleteT src => exact ⟨_, rfl, by rw [taskFromJson_mk]; rfl⟩
  | copy src dst => exact ⟨_, rfl, by rw [taskFromJson_mk]; rfl⟩
  | move src dst po =>
    cases po with
    | none => exact ⟨_, rfl, by rw [taskFromJson_mk]; rfl⟩
    | some p => exact ⟨_, rfl, by rw [taskFromJson_mk]; rfl⟩

/-- C4 witness: the amended round-trip at a concrete Echo task. -/
theorem C4_witness :
    plainVariant (.echo "hello") = true ∧
      ∃ cell, taskToJson (.echo "hello") = .ok cell ∧
        taskFromJson cell "f0" = .ok (.echo "hello") :=
  ⟨by decide, C4_plain_roundtrip (.echo "hello") "f0" (by decide)⟩

/-- After a `putRow`, exactly the freshly inserted row matches the
`(task, PENDING)` pair, whatever the previous state held: the
`INSERT OR REPLACE` deletes every conflicting row first. -/
theorem filter_putRow (q : QState) (cell : String) (p : Int) (par : Option Nat) :
    (putRow q cell p par).filter (fun r => r.task = cell ∧ r.status = stPENDING)
      = [Row.mk (freshRowid q) p cell stPENDING none par] := by
  unfold putRow
  rw [List.filter_append]
  have h1 : (q.filter fun r => ¬(r.task = cell ∧ r.status = stPENDING)).filter
      (fun r => r.task = cell ∧ r.status = stPENDING) = [] := by
    induction q with
    | nil => rfl
    | cons r rs ih =>
      by_cases hP : (r.task = cell ∧ r.status = stPENDING)
      · simp only [List.filter_cons]
        rw [if_neg (by simp [hP])]
        exact ih
      · simp only [List.filter_cons]
        rw [if_pos (by simp [hP])]
        simp only [List.filter_cons]
        rw [if_neg (by simp [hP])]
        exact ih
  rw [h1, List.nil_append]
  simp

/-- C6: enqueuing the same task twice leaves exactly one PENDING row
for it — the second `put` replaces the first via the
`UNIQUE(task, status)` constraint and `INSERT OR REPLACE` —
and that row is the one inserted by the second `put`. -/
theorem C6_put_replaces (q : QState) (t : TaskData) (p1 p2 : Int)
    (a1 a2 : Option Nat) (cell : String) (q1 q2 : QState)
    (hcell : taskToJson t = .ok cell)
    (h1 : TaskQueue.put q t p1 a1 = .ok q1)
    (h2 : TaskQueue.put q1 t p2 a2 = .ok q2) :
    (q2.filter (fun r => r.task = cell ∧ r.status = stPENDING)).length = 1 ∧
      ∀ r ∈ q2, r.task = cell ∧ r.status = stPENDING →
        r = Row.mk (freshRowid q1) p2 cell stPENDING none a2 := by
  unfold TaskQueue.put at h1 h2
  rw [hcell] at h1 h2
  simp only [Except.map] at h1 h2
  obtain rfl : putRow q cell p1 a1 = q1 := by
    cases h1
    rfl
  obtain rfl : putRow (putRow q cell p1 a1) cell p2 a2 = q2 := by
    cases h2
    rfl
  constructor
  · rw [filter_putRow]
    rfl
  · intro r hr hpred
    have hmem : r ∈ (putRow (putRow q cell p1 a1) cell p2 a2).filter
        (fun r => r.task = cell ∧ r.status = stPENDING) :=
      List.mem_filter.2 ⟨hr, by simp [hpred]⟩
    rw [filter_putRow] at hmem
    simpa using hmem

/-- C6 witness: the theorem applied to an Echo task enqueued twice
into an empty queue. -/
theorem C6_witness :
    ((putRow (putRow [] "\x7b\"type\": 1, \"msg\": \"x\"\x7d" 10 none)
        "\x7b\"type\": 1, \"msg\": \"x\"\x7d" 10 none).filter
      (fun r => r.task = "\x7b\"type\": 1, \"msg\": \"x\"\x7d" ∧ r.status = stPENDING)).length = 1 ∧
    ∀ r ∈ putRow (putRow [] "\x7b\"type\": 1, \"msg\": \"x\"\x7d" 10 none)
        "\x7b\"type\": 1, \"msg\": \"x\"\x7d" 10 none,
      r.task = "\x7b\"type\": 1, \"msg\": \"x\"\x7d" ∧ r.status = stPENDING →
        r = Row.mk (freshRowid (putRow [] "\x7b\"type\": 1, \"msg\": \"x\"\x7d" 10 none))
          10 "\x7b\"type\": 1, \"msg\": \"x\"\x7d" stPENDING none none :=
  C6_put_replaces [] (.echo "x") 10 10 none none
    "\x7b\"type\": 1, \"msg\": \"x\"\x7d" _ _ (by decide) (by decide) (by decide)

/-- The claimed lock discipline: a row is ACTIVE exactly when its lock
column is non-NULL. -/
def LockInv (q : QState) : Prop :=
  ∀ r ∈ q, (r.status = stACTIVE ↔ r.lock ≠ none)

theorem lockInv_putRow {q : QState} (cell : String) (p : Int) (par : Option Nat)
    (h : LockInv q) : LockInv (putRow q cell p par) := by
  intro r hr
  rcases List.mem_append.1 hr with hr | hr
  · exact h r (List.mem_of_mem_filter hr)
  · simp only [List.mem_singleton] at hr
    subst hr
    constructor
    · intro hst
      exact absurd (show (stPENDING : Int) = stACTIVE from hst) (by decide)
    · intro hlk
      exact absurd rfl hlk

theorem lockInv_markStatus {q : QState} (oid : Nat) (st : Int) (lk : Option String)
    (hok : st = stACTIVE ↔ lk ≠ none) (h : LockInv q) :
    LockInv (markStatus q oid st lk) := by
  intro r hr
  obtain ⟨r0, hr0, heq⟩ := List.mem_map.1 hr
  by_cases hid : r0.rowid = oid
  · rw [if_pos hid] at heq
    rw [← heq]
    exact hok
  · rw [if_neg hid] at heq
    rw [← heq]
    exact h r0 hr0

theorem lockInv_reset {q : QState} (h : LockInv q) :
    LockInv (TaskQueue.reset_active_tasks q) := by
  intro r hr
  obtain ⟨r0, hr0, heq⟩ := List.mem_map.1 hr
  by_cases hst : r0.status = stACTIVE
  · rw [if_pos hst] at heq
    rw [← heq]
    constructor
    · intro habs
      exact absurd (show (stPENDING : Int) = stACTIVE from habs) (by decide)
    · intro hlk
      exact absurd rfl hlk
  · rw [if_neg hst] at heq
    rw [← heq]
    exact h r0 hr0

theorem popFinish_fst (q : QState) (oid : Nat) (lock freshHex : String) :
    (popFinish q oid lock freshHex).1 = q := by
  unfold popFinish
  cases q.find? (fun r => r.rowid = oid) with
  | none => rfl
  | some row =>
    by_cases hl : row.lock ≠ some lock
    · simp [hl]
    · simp only [hl, if_false]
      cases taskFromJson row.task freshHex <;> rfl

/-- C5: in every queue state reachable through the mutating
`TaskQueue` operations, a row is ACTIVE if and only if its lock column
is non-NULL; `put`, `set_status` (all statuses), `pop` and
`reset_active_tasks` all preserve the invariant. -/
theorem C5_lock_invariant (q : QState) (h : QReachable q) :
    ∀ r ∈ q, (r.status = stACTIVE ↔ r.lock ≠ none) := by
  induction h with
  | empty => intro r hr; cases hr
  | put q t prio par q' hq hput ih =>
    unfold TaskQueue.put at hput
    cases hc : taskToJson t with
    | error e => rw [hc] at hput; cases hput
    | ok cell =>
      rw [hc] at hput
      simp only [Except.map] at hput
      cases hput
      exact lockInv_putRow cell prio par ih
  | set_status q oid st lk q' hq hset ih =>
    unfold TaskQueue.set_status at hset
    by_cases hst : st = stACTIVE
    · rw [if_pos hst] at hset
      cases lk with
      | none => cases hset
      | some l =>
        cases hset
        exact lockInv_markStatus oid st (some l) (by simp [hst]) ih
    · rw [if_neg hst] at hset
      cases lk with
      | some l => cases hset
      | none =>
        cases hset
        exact lockInv_markStatus oid st none (by simp [hst]) ih
  | pop q flt lock freshHex hq ih =>
    unfold TaskQueue.pop
    cases popSelect q flt with
    | none => exact ih
    | some r =>
      rw [popFinish_fst]
      exact lockInv_markStatus r.rowid stACTIVE (some lock) (by simp) ih
  | reset q hq ih => exact lockInv_reset ih
  | flush q st hq ih =>
    cases st with
    | none => intro r hr; cases hr
    | some s =>
      intro r hr
      exact ih r (List.mem_of_mem_filter hr)

/-- C5 witness: the invariant at the single row of the reachable state
obtained by one `put` into the empty queue. -/
theorem C5_witness :
    (Row.mk 1 10 "\x7b\"type\": 1, \"msg\": \"x\"\x7d" stPENDING none none).status = stACTIVE
      ↔ (Row.mk 1 10 "\x7b\"type\": 1, \"msg\": \"x\"\x7d" stPENDING none none).lock ≠ none :=
  C5_lock_invariant (putRow [] "\x7b\"type\": 1, \"msg\": \"x\"\x7d" 10 none)
    (QReachable.put [] (.echo "x") 10 none
      (putRow [] "\x7b\"type\": 1, \"msg\": \"x\"\x7d" 10 none)
      QReachable.empty (by decide))
    (Row.mk 1 10 "\x7b\"type\": 1, \"msg\": \"x\"\x7d" stPENDING none none)
    (by decide)

/-- C2 counterexample: a `QUEUE_PUT` of a Copy task whose source is
missing — validation reports neither destination-exists case, yet the
daemon replies FAIL and inserts nothing, where the claim's "otherwise"
branch asserts an insertion and an OK reply. -/
theorem C2_counterexample :
    validateTask [] (.copy "/a" "/b") = some .fileNotFound ∧
      handleQueuePut [] []
        [("type", .jint 4), ("src", .jstr "/a"), ("dst", .jstr "/b")] "f0"
        = ([], ⟨stFAIL, some (.copy "/a" "/b")⟩) := by decide

/-- C2 (amended): the `QUEUE_PUT` handler validates before inserting:
a destination-exists-identical or cannot-compare outcome replies SKIP
with no row inserted; destination-exists-and-differs replies FAIL with
no row inserted; every other validation failure (missing or invalid
source) also replies FAIL with no row inserted; only when validation
passes (and the task serializes) is a PENDING row inserted at the
default priority 10 and the task echoed with OK. -/
theorem C2_queue_put_validates (fs : FS) (q : QState) (d : Dict) (freshHex : String)
    (t : TaskData) (ht : TaskData.from_dict d freshHex = .ok t) :
    (∀ e, validateTask fs t = some e → isSkippedExc e = true →
        handleQueuePut fs q d freshHex = (q, ⟨stSKIP, some t⟩)) ∧
    (∀ e, validateTask fs t = some e → isSkippedExc e = false →
        handleQueuePut fs q d freshHex = (q, ⟨stFAIL, some t⟩)) ∧
    (validateTask fs t = none → ∀ cell, taskToJson t = .ok cell →
        handleQueuePut fs q d freshHex = (putRow q cell 10 none, ⟨stOK, some t⟩)) := by
  refine ⟨?_, ?_, ?_⟩
  · intro e hval hskip
    unfold handleQueuePut
    simp only [ht, hval, hskip, if_true]
  · intro e hval hskip
    unfold handleQueuePut
    simp only [ht, hval, hskip, Bool.false_eq_true, if_false]
  · intro hval cell hcell
    unfold handleQueuePut
    simp only [ht, hval]
    unfold TaskQueue.put
    rw [hcell]
    rfl

/-- C2 witness: the OK branch of the amended theorem at a concrete
Copy task whose source exists and whose destination does not. -/
theorem C2_witness :
    handleQueuePut [("/a", FSNode.file "x")] []
        [("type", .jint 4), ("src", .jstr "/a"), ("dst", .jstr "/b")] "f0"
      = (putRow [] "\x7b\"type\": 4, \"src\": \"/a\", \"dst\": \"/b\"\x7d" 10 none,
         ⟨stOK, some (.copy "/a" "/b")⟩) :=
  (C2_queue_put_validates [("/a", FSNode.file "x")] []
      [("type", .jint 4), ("src", .jstr "/a"), ("dst", .jstr "/b")] "f0"
      (.copy "/a" "/b") (by decide)).2.2 (by decide)
    "\x7b\"type\": 4, \"src\": \"/a\", \"dst\": \"/b\"\x7d" (by decide)

/-- C9: the `QUEUE_START` handler calls `self.queue.start(...)`, but
`TaskQueue` defines no attribute `start` (its processing entry point
is `run`): the resulting `AttributeError` is caught by the handler's
outer `except`, the daemon replies FAIL, and no worker is spawned —
the state, worker pools included, is unchanged. -/
theorem C9_queue_start_fails (st : DaemonState) :
    handleQueueStart st = (st, stFAIL) := by
  unfold handleQueueStart
  rw [if_neg (by decide)]

/-- Rows of `markStatus` keep their priority and parent columns. -/
theorem mem_markStatus {q : QState} {oid : Nat} {st : Int} {lk : Option String}
    {r : Row} (hr : r ∈ markStatus q oid st lk) :
    ∃ r0 ∈ q, r.priority = r0.priority ∧ r.parent = r0.parent := by
  obtain ⟨r0, hr0, heq⟩ := List.mem_map.1 hr
  refine ⟨r0, hr0, ?_⟩
  by_cases hid : r0.rowid = oid
  · rw [if_pos hid] at heq
    rw [← heq]
    exact ⟨rfl, rfl⟩
  · rw [if_neg hid] at heq
    rw [← heq]
    exact ⟨rfl, rfl⟩

/-- Rows of `reset_active_tasks` keep their priority and parent
columns. -/
theorem mem_reset {q : QState} {r : Row}
    (hr : r ∈ TaskQueue.reset_active_tasks q) :
    ∃ r0 ∈ q, r.priority = r0.priority ∧ r.parent = r0.parent := by
  obtain ⟨r0, hr0, heq⟩ := List.mem_map.1 hr
  refine ⟨r0, hr0, ?_⟩
  by_cases hst : r0.status = stACTIVE
  · rw [if_pos hst] at heq
    rw [← heq]
    exact ⟨rfl, rfl⟩
  · rw [if_neg hst] at heq
    rw [← heq]
    exact ⟨rfl, rfl⟩

/-- Rows of a `putRow` are previous rows or the inserted one. -/
theorem mem_putRow {q : QState} {cell : String} {p : Int} {par : Option Nat}
    {r : Row} (hr : r ∈ putRow q cell p par) :
    r ∈ q ∨ (r.priority = p ∧ r.parent = par) := by
  rcases List.mem_append.1 hr with hr | hr
  · exact Or.inl (List.mem_of_mem_filter hr)
  · simp only [List.mem_singleton] at hr
    subst hr
    exact Or.inr ⟨rfl, rfl⟩

/-- The priority/parent discipline the daemon maintains. -/
def PriorityInv (q : QState) : Prop :=
  ∀ r ∈ q, r.priority = -1 → r.parent ≠ none

theorem priorityInv_markStatus {q : QState} (oid : Nat) (st : Int)
    (lk : Option String) (h : PriorityInv q) :
    PriorityInv (markStatus q oid st lk) := by
  intro r hr hp
  obtain ⟨r0, hr0, hpr, hpa⟩ := mem_markStatus hr
  rw [hpa]
  exact h r0 hr0 (hpr ▸ hp)

/-- C10: rows inserted by the daemon's `QUEUE_PUT` handler always get
priority 10 and a NULL parent (the handler passes neither), and in
every queue state reachable through the daemon and its workers, every
row with priority −1 is a worker-spawned child with a non-NULL
parent. -/
theorem C10_priority_discipline :
    (∀ (fs : FS) (q : QState) (d : Dict) (freshHex : String) (r : Row),
        r ∈ (handleQueuePut fs q d freshHex).1 →
        r ∈ q ∨ (r.priority = 10 ∧ r.parent = none)) ∧
    (∀ (q : QState), DReachable q → ∀ r ∈ q, r.priority = -1 → r.parent ≠ none) := by
  have hput : ∀ (fs : FS) (q : QState) (d : Dict) (freshHex : String) (r : Row),
      r ∈ (handleQueuePut fs q d freshHex).1 →
      r ∈ q ∨ (r.priority = 10 ∧ r.parent = none) := by
    intro fs q d freshHex r hr
    unfold handleQueuePut at hr
    cases hd : TaskData.from_dict d freshHex with
    | error e => rw [hd] at hr; exact Or.inl hr
    | ok tsk =>
      rw [hd] at hr
      simp only [] at hr
      cases hv : validateTask fs tsk with
      | none =>
        rw [hv] at hr
        simp only [] at hr
        cases hp : TaskQueue.put q tsk with
        | ok q' =>
          rw [hp] at hr
          unfold TaskQueue.put at hp
          cases hc : taskToJson tsk with
          | error e => rw [hc] at hp; cases hp
          | ok cell =>
            rw [hc] at hp
            simp only [Except.map] at hp
            cases hp
            exact mem_putRow hr
        | error e => rw [hp] at hr; exact Or.inl hr
      | some e =>
        rw [hv] at hr
        simp only [] at hr
        by_cases hs : isSkippedExc e = true
        · rw [if_pos hs] at hr; exact Or.inl hr
        · rw [if_neg hs] at hr; exact Or.inl hr
  refine ⟨hput, ?_⟩
  intro q h
  induction h with
  | empty => intro r hr; cases hr
  | handlerPut fs q payload freshHex hq ih =>
    intro r hr hp
    rcases hput fs q payload freshHex r hr with hr | ⟨hpr, _⟩
    · exact ih r hr hp
    · rw [hpr] at hp; cases hp
  | workerOk q t oid hq ih =>
    intro r hr hp
    unfold workerOkStep at hr
    have step2 : ∀ r2 ∈
        (match t.spawn (some oid) with
         | .ok follow =>
           match TaskQueue.put (markStatus q oid stOK none) follow (-1) (some oid) with
           | .ok q' => q'
           | .error _ => markStatus q oid stOK none
         | .error _ => markStatus q oid stOK none),
        r2.priority = -1 → r2.parent ≠ none := by
      intro r2 hr2 hp2
      cases hs : t.spawn (some oid) with
      | error e =>
        rw [hs] at hr2
        simp only [] at hr2
        exact priorityInv_markStatus oid stOK none ih r2 hr2 hp2
      | ok follow =>
        rw [hs] at hr2
        simp only [] at hr2
        cases hq2 : TaskQueue.put (markStatus q oid stOK none) follow (-1) (some oid) with
        | error e =>
          rw [hq2] at hr2
          simp only [] at hr2
          exact priorityInv_markStatus oid stOK none ih r2 hr2 hp2
        | ok q' =>
          rw [hq2] at hr2
          simp only [] at hr2
          unfold TaskQueue.put at hq2
          cases hc : taskToJson follow with
          | error e => rw [hc] at hq2; cases hq2
          | ok cell =>
            rw [hc] at hq2
            simp only [Except.map] at hq2
            cases hq2
            rcases mem_putRow hr2 with hmem | ⟨_, hpar⟩
            · exact priorityInv_markStatus oid stOK none ih r2 hmem hp2
            · rw [hpar]; exact Option.some_ne_none oid
    cases hpo : t.parentOid with
    | none =>
      rw [hpo] at hr
      simp only [] at hr
      exact step2 r hr hp
    | some po =>
      rw [hpo] at hr
      simp only [] at hr
      cases hsq : sqliteTextToRowid po with
      | none =>
        rw [hsq] at hr
        exact step2 r hr hp
      | some pnat =>
        rw [hsq] at hr
        obtain ⟨r0, hr0, hpr, hpa⟩ := mem_markStatus hr
        rw [hpa]
        exact step2 r0 hr0 (hpr ▸ hp)
  | workerFail q t oid hq ih =>
    intro r hr hp
    unfold workerFailStep at hr
    cases hpo : t.parentOid with
    | none =>
      rw [hpo] at hr
      simp only [] at hr
      exact priorityInv_markStatus oid stFAIL none ih r hr hp
    | some po =>
      rw [hpo] at hr
      simp only [] at hr
      cases hsq : sqliteTextToRowid po with
      | none =>
        rw [hsq] at hr
        exact priorityInv_markStatus oid stFAIL none ih r hr hp
      | some pnat =>
        rw [hsq] at hr
        obtain ⟨r0, hr0, hpr, hpa⟩ := mem_markStatus hr
        rw [hpa]
        exact priorityInv_markStatus oid stFAIL none ih r0 hr0 (hpr ▸ hp)
  | pop q flt lock freshHex hq ih =>
    intro r hr hp
    unfold TaskQueue.pop at hr
    cases hsel : popSelect q flt with
    | none => rw [hsel] at hr; exact ih r hr hp
    | some rs =>
      rw [hsel] at hr
      simp only [] at hr
      rw [popFinish_fst] at hr
      exact priorityInv_markStatus rs.rowid stACTIVE (some lock) ih r hr hp
  | reset q hq ih =>
    intro r hr hp
    obtain ⟨r0, hr0, hpr, hpa⟩ := mem_reset hr
    rw [hpa]
    exact ih r0 hr0 (hpr ▸ hp)
  | flush q st hq ih =>
    intro r hr hp
    cases st with
    | none => cases hr
    | some s => exact ih r (List.mem_of_mem_filter hr) hp

/-- C10 witness: the handler part at a concrete Copy enqueue, and the
invariant part at the state reached by that enqueue followed by a
worker completing a Convert task with record id 1 (which spawns the
priority −1 Move child with parent 1). -/
theorem C10_witness :
    (Row.mk 1 10 "\x7b\"type\": 4, \"src\": \"/a\", \"dst\": \"/b\"\x7d" stPENDING none none
        ∈ ([] : QState) ∨
      ((Row.mk 1 10 "\x7b\"type\": 4, \"src\": \"/a\", \"dst\": \"/b\"\x7d" stPENDING none none).priority = 10 ∧
       (Row.mk 1 10 "\x7b\"type\": 4, \"src\": \"/a\", \"dst\": \"/b\"\x7d" stPENDING none none).parent = none)) ∧
    (Row.mk 2 (-1) "\x7b\"type\": 5, \"src\": \"/t\", \"dst\": \"/b\", \"parent_oid\": \"1\"\x7d"
        stPENDING none (some 1)).parent ≠ none :=
  ⟨C10_priority_discipline.1 [("/a", FSNode.file "x")] []
      [("type", .jint 4), ("src", .jstr "/a"), ("dst", .jstr "/b")] "f0"
      (Row.mk 1 10 "\x7b\"type\": 4, \"src\": \"/a\", \"dst\": \"/b\"\x7d" stPENDING none none)
      (by decide),
   C10_priority_discipline.2
      (workerOkStep
        (handleQueuePut [("/a", FSNode.file "x")] []
          [("type", .jint 4), ("src", .jstr "/a"), ("dst", .jstr "/b")] "f0").1
        (.convert "/a" "/b" (.copyC false none) "/t") 1)
      (DReachable.workerOk _ _ 1
        (DReachable.handlerPut [("/a", FSNode.file "x")] []
          [("type", .jint 4), ("src", .jstr "/a"), ("dst", .jstr "/b")] "f0"
          DReachable.empty))
      (Row.mk 2 (-1) "\x7b\"type\": 5, \"src\": \"/t\", \"dst\": \"/b\", \"parent_oid\": \"1\"\x7d"
        stPENDING none (some 1))
      (by decide) (by decide)⟩

theorem likeGo_typePattern9_five (fuel : Nat) (s : List Char) (hf : 10 ≤ fuel) :
    likeMatchGo fuel (typePattern 9)
      ('\x7b' :: '"' :: 't' :: 'y' :: 'p' :: 'e' :: '"' :: ':' :: ' ' :: '5' :: s) = false := by
  obtain ⟨f, rfl⟩ : ∃ f, fuel = f + 10 := ⟨fuel - 10, by omega⟩
  simp [likeMatchGo, typePattern, lowerAscii, natChars, natCharsGo]

/-- A serialized Move task does not match the `'__type___9%'` pattern
of the convert-worker filter: its JSON starts `{"type": 5, ...` and
the pattern's literal tag `9` fails against the `5`. -/
theorem likeType9_move_cell (tmp dst : String) (po : Option String) (cell : String)
    (hcell : taskToJson (.move tmp dst po) = .ok cell) :
    likeTypeMatch 9 cell = false := by
  obtain rfl : String.mk (dumpVal (.jobj
      [("type", .jint 5), ("src", .jstr tmp), ("dst", .jstr dst),
       ("parent_oid", optStr po)])) = cell := by
    cases hcell
    rfl
  show likeMatchGo _ _ _ = false
  exact likeGo_typePattern9_five _ _ (by
    have h1 : (typePattern 9).length = 11 := by decide
    omega)

theorem selectMinPriority_eq_none : ∀ (l : List Row),
    selectMinPriority l = none → l = []
  | [], _ => rfl
  | r :: rs, h => by
    rw [selectMinPriority] at h
    cases hr : selectMinPriority rs with
    | none => rw [hr] at h; cases h
    | some m =>
      rw [hr] at h
      by_cases hx : m.priority < r.priority <;> simp [hx] at h

theorem selectMinPriority_spec : ∀ (l : List Row) (m : Row),
    selectMinPriority l = some m → m ∈ l ∧ ∀ r ∈ l, m.priority ≤ r.priority := by
  intro l
  induction l with
  | nil => intro m h; cases h
  | cons r rs ih =>
    intro m h
    rw [selectMinPriority] at h
    cases hrec : selectMinPriority rs with
    | none =>
      rw [hrec] at h
      simp only [] at h
      cases h
      have hnil : rs = [] := selectMinPriority_eq_none rs hrec
      subst hnil
      refine ⟨List.mem_cons_self _ _, ?_⟩
      intro r2 hr2
      rcases List.mem_cons.1 hr2 with rfl | hr2
      · exact le_refl _
      · cases hr2
    | some m0 =>
      rw [hrec] at h
      simp only [] at h
      obtain ⟨hmem0, hmin0⟩ := ih m0 hrec
      by_cases hlt : m0.priority < r.priority
      · rw [if_pos hlt] at h
        cases h
        refine ⟨List.mem_cons_of_mem _ hmem0, ?_⟩
        intro r2 hr2
        rcases List.mem_cons.1 hr2 with rfl | hr2
        · exact le_of_lt hlt
        · exact hmin0 r2 hr2
      · rw [if_neg hlt] at h
        cases h
        refine ⟨List.mem_cons_self _ _, ?_⟩
        intro r2 hr2
        rcases List.mem_cons.1 hr2 with rfl | hr2
        · exact le_refl _
        · exact le_trans (by omega) (hmin0 r2 hr2)

/-- C7: `ConvertTask.spawn` on a popped Convert task (record id set)
returns a Move with `src = tmpdst`, `dst = dst` and `parent_oid` the
convert's record id; after the convert completes OK the worker
enqueues exactly that follow-up with priority −1 and parent set to the
record id, the inserted row matches the transfer-worker filter
(`NOT LIKE '__type___9%'`), and `pop` — which selects a
minimal-priority pending candidate — never returns a row of the
default priority 10 while such a priority −1 candidate is pending. -/
theorem C7_convert_spawn (q : QState) (src dst tmp : String) (conv : ConvObj)
    (oid : Nat) :
    TaskData.spawn (.convert src dst conv tmp) (some oid)
      = .ok (.move tmp dst (some (String.mk (natChars oid)))) ∧
    (∃ cell, taskToJson (.move tmp dst (some (String.mk (natChars oid)))) = .ok cell ∧
      workerOkStep q (.convert src dst conv tmp) oid
        = putRow (markStatus q oid stOK none) cell (-1) (some oid) ∧
      Row.mk (freshRowid (markStatus q oid stOK none)) (-1) cell stPENDING none (some oid)
          ∈ workerOkStep q (.convert src dst conv tmp) oid ∧
      popCandidate (.excludeType 9)
        (Row.mk (freshRowid (markStatus q oid stOK none)) (-1) cell stPENDING none
          (some oid)) = true) ∧
    (∀ (q2 : QState) (r0 : Row), r0 ∈ q2 → popCandidate (.excludeType 9) r0 = true →
      r0.priority ≤ -1 →
      ∀ rs, popSelect q2 (.excludeType 9) = some rs → rs.priority < 10) := by
  refine ⟨rfl, ?_, ?_⟩
  · refine ⟨_, rfl, ?_, ?_, ?_⟩
    · show workerOkStep q (.convert src dst conv tmp) oid = _
      unfold workerOkStep
      rfl
    · show _ ∈ workerOkStep q (.convert src dst conv tmp) oid
      unfold workerOkStep
      show _ ∈ putRow (markStatus q oid stOK none) _ (-1) (some oid)
      unfold putRow
      exact List.mem_append_right _ (List.mem_singleton.2 rfl)
    · have hlike := likeType9_move_cell tmp dst (some (String.mk (natChars oid)))
        (String.mk (dumpVal (.jobj [("type", .jint 5), ("src", .jstr tmp),
          ("dst", .jstr dst), ("parent_oid", optStr (some (String.mk (natChars oid))))])))
        rfl
      simp [popCandidate, hlike]
  · intro q2 r0 hr0 hcand hple rs hsel
    obtain ⟨hmem, hmin⟩ := selectMinPriority_spec _ rs hsel
    have h0 : r0 ∈ q2.filter (popCandidate (.excludeType 9)) :=
      List.mem_filter.2 ⟨hr0, hcand⟩
    have := hmin r0 h0
    omega

/-- C7 witness: the spawn equation at a concrete popped Convert task
with record id 1, and the pop-ordering conclusion at a queue holding
the spawned priority −1 Move next to an ordinary priority 10 row. -/
theorem C7_witness :
    TaskData.spawn (.convert "/s" "/d" (.copyC false none) "/t") (some 1)
      = .ok (.move "/t" "/d" (some (String.mk (natChars 1)))) ∧
    (Row.mk 2 (-1) "\x7b\"type\": 5, \"src\": \"/t\", \"dst\": \"/d\", \"parent_oid\": \"1\"\x7d"
      stPENDING none (some 1)).priority < 10 :=
  ⟨(C7_convert_spawn [] "/s" "/d" "/t" (.copyC false none) 1).1,
   (C7_convert_spawn [] "/s" "/d" "/t" (.copyC false none) 1).2.2
     [Row.mk 2 (-1) "\x7b\"type\": 5, \"src\": \"/t\", \"dst\": \"/d\", \"parent_oid\": \"1\"\x7d"
        stPENDING none (some 1),
      Row.mk 1 10 "\x7b\"type\": 4, \"src\": \"/a\", \"dst\": \"/b\"\x7d" stPENDING none none]
     (Row.mk 2 (-1) "\x7b\"type\": 5, \"src\": \"/t\", \"dst\": \"/d\", \"parent_oid\": \"1\"\x7d"
        stPENDING none (some 1))
     (by decide) (by decide) (by decide)
     (Row.mk 2 (-1) "\x7b\"type\": 5, \"src\": \"/t\", \"dst\": \"/d\", \"parent_oid\": \"1\"\x7d"
        stPENDING none (some 1))
     (by decide)⟩

/-- With unique rowids, updating a row and re-reading it by `_ROWID_`
finds exactly the updated row. -/
theorem find_markStatus : ∀ (q : QState) (r : Row), (q.map Row.rowid).Nodup →
    r ∈ q → ∀ (st : Int) (lk : Option String),
    (markStatus q r.rowid st lk).find? (fun x => x.rowid = r.rowid)
      = some { r with status := st, lock := lk } := by
  intro q
  induction q with
  | nil => intro r _ hr; cases hr
  | cons a as ih =>
    intro r hnd hr st lk
    have hnd' : (as.map Row.rowid).Nodup := (List.nodup_cons.1 hnd).2
    by_cases hid : a.rowid = r.rowid
    · have hra : r = a := by
        rcases List.mem_cons.1 hr with rfl | hr'
        · rfl
        · exfalso
          have : a.rowid ∉ as.map Row.rowid := (List.nodup_cons.1 hnd).1
          exact this (hid ▸ List.mem_map_of_mem Row.rowid hr')
      subst hra
      simp [markStatus, List.find?]
    · have hr' : r ∈ as := by
        rcases List.mem_cons.1 hr with rfl | hr'
        · exact absurd rfl hid
        · exact hr'
      simp only [markStatus, List.map_cons]
      rw [if_neg hid]
      rw [List.find?_cons_of_neg _ (by simpa using hid)]
      exact ih r hnd' hr' st lk

/-- C1: when at least one PENDING row matches the kind filter, `pop`
selects a matching PENDING record of minimal priority, sets it ACTIVE
with the generated lock token, and returns the deserialized task with
its record id attached; and the re-read of steps 4–5 raises
`AlreadyUnderEvaluationError` exactly when the lock stored in the row
it re-reads differs from the generated token (the race guard), never
in this sequential run. -/
theorem C1_pop_spec (q : QState) (flt : PopFilter) (lock freshHex : String)
    (hids : (q.map Row.rowid).Nodup)
    (hdec : ∀ r ∈ q, ∃ t, taskFromJson r.task freshHex = .ok t)
    (hex : ∃ r ∈ q, popCandidate flt r = true) :
    (∃ r ∈ q, popCandidate flt r = true ∧
      (∀ r2 ∈ q, popCandidate flt r2 = true → r.priority ≤ r2.priority) ∧
      (∃ t, taskFromJson r.task freshHex = .ok t ∧
        TaskQueue.pop q flt lock freshHex
          = (markStatus q r.rowid stACTIVE (some lock), .ok (t, r.rowid))) ∧
      { r with status := stACTIVE, lock := some lock }
        ∈ (TaskQueue.pop q flt lock freshHex).1) ∧
    (∀ (q2 : QState) (oid : Nat) (row : Row),
      q2.find? (fun x => x.rowid = oid) = some row →
      (∃ t2, taskFromJson row.task freshHex = .ok t2) →
      ((popFinish q2 oid lock freshHex).2 = .error .alreadyClaimed
        ↔ row.lock ≠ some lock)) := by
  constructor
  · obtain ⟨r0, hr0, hc0⟩ := hex
    have hne : q.filter (popCandidate flt) ≠ [] := by
      intro hnil
      have : r0 ∈ q.filter (popCandidate flt) := List.mem_filter.2 ⟨hr0, hc0⟩
      rw [hnil] at this
      cases this
    obtain ⟨r, hsel⟩ : ∃ r, popSelect q flt = some r := by
      unfold popSelect
      cases hs : selectMinPriority (q.filter (popCandidate flt)) with
      | none => exact absurd (selectMinPriority_eq_none _ hs) hne
      | some r => exact ⟨r, rfl⟩
    obtain ⟨hmem, hmin⟩ := selectMinPriority_spec _ r hsel
    have hrq : r ∈ q := List.mem_of_mem_filter hmem
    have hrc : popCandidate flt r = true := (List.mem_filter.1 hmem).2
    obtain ⟨t, ht⟩ := hdec r hrq
    refine ⟨r, hrq, hrc, ?_, ⟨t, ht, ?_⟩, ?_⟩
    · intro r2 hr2 hc2
      exact hmin r2 (List.mem_filter.2 ⟨hr2, hc2⟩)
    · unfold TaskQueue.pop
      rw [hsel]
      simp only []
      unfold popFinish
      rw [find_markStatus q r hids hrq stACTIVE (some lock)]
      simp only []
      rw [if_neg (by simp)]
      have ht' : taskFromJson ({ r with status := stACTIVE, lock := some lock } : Row).task
          freshHex = .ok t := ht
      rw [ht']
    · unfold TaskQueue.pop
      rw [hsel]
      simp only []
      rw [popFinish_fst]
      have : { r with status := stACTIVE, lock := some lock }
          ∈ markStatus q r.rowid stACTIVE (some lock) := by
        unfold markStatus
        exact List.mem_map.2 ⟨r, hrq, by rw [if_pos rfl]⟩
      exact this
  · intro q2 oid row hfind hdec2
    unfold popFinish
    rw [hfind]
    simp only []
    by_cases hl : row.lock ≠ some lock
    · rw [if_pos hl]
      simp [hl]
    · rw [if_neg hl]
      obtain ⟨t2, ht2⟩ := hdec2
      rw [ht2]
      simp only []
      constructor
      · intro habs
        cases habs
      · intro habs
        exact absurd habs hl

/-- C1 witness: the pop specification at a one-row queue holding a
PENDING Echo task. -/
theorem C1_witness :
    (∃ r ∈ [Row.mk 1 10 "\x7b\"type\": 1, \"msg\": \"x\"\x7d" stPENDING none none],
      popCandidate .all r = true ∧
      (∀ r2 ∈ [Row.mk 1 10 "\x7b\"type\": 1, \"msg\": \"x\"\x7d" stPENDING none none],
        popCandidate .all r2 = true → r.priority ≤ r2.priority) ∧
      (∃ t, taskFromJson r.task "f0" = .ok t ∧
        TaskQueue.pop [Row.mk 1 10 "\x7b\"type\": 1, \"msg\": \"x\"\x7d" stPENDING none none]
            .all "L" "f0"
          = (markStatus [Row.mk 1 10 "\x7b\"type\": 1, \"msg\": \"x\"\x7d" stPENDING none none]
              r.rowid stACTIVE (some "L"), .ok (t, r.rowid))) ∧
      { r with status := stACTIVE, lock := some "L" }
        ∈ (TaskQueue.pop [Row.mk 1 10 "\x7b\"type\": 1, \"msg\": \"x\"\x7d" stPENDING none none]
            .all "L" "f0").1) ∧
    (∀ (q2 : QState) (oid : Nat) (row : Row),
      q2.find? (fun x => x.rowid = oid) = some row →
      (∃ t2, taskFromJson row.task "f0" = .ok t2) →
      ((popFinish q2 oid "L" "f0").2 = .error .alreadyClaimed
        ↔ row.lock ≠ some "L")) :=
  C1_pop_spec [Row.mk 1 10 "\x7b\"type\": 1, \"msg\": \"x\"\x7d" stPENDING none none]
    .all "L" "f0" (by decide)
    (by
      intro r hr
      rw [List.mem_singleton] at hr
      subst hr
      exact ⟨.echo "x", by decide⟩)
    ⟨Row.mk 1 10 "\x7b\"type\": 1, \"msg\": \"x\"\x7d" stPENDING none none,
      by decide, by decide⟩

/-- C8 counterexample: a message with empty body and no extra headers
encodes successfully (its header fits the 16-bit prefix), but decoding
the encoding does not return the message: `from_bytes` keeps the
`content-type` header that `encode` added. -/
theorem C8_counterexample :
    (Message.encode ⟨[], []⟩).isOk = true ∧
      (Message.encode ⟨[], []⟩).bind Message.from_bytes
        ≠ .ok (⟨[], []⟩ : WireMsg) := by decide

theorem dictLookup_eq_none_forall {d : Dict} {k : String}
    (h : dictLookup d k = none) : ∀ kv ∈ d, kv.1 ≠ k := by
  induction d with
  | nil => intro kv hkv; cases hkv
  | cons a rest ih =>
    intro kv hkv
    obtain ⟨k1, v1⟩ := a
    unfold dictLookup at h
    by_cases hk : k1 = k
    · rw [if_pos hk] at h; cases h
    · rw [if_neg hk] at h
      rcases List.mem_cons.1 hkv with rfl | hkv
      · exact hk
      · exact ih h kv hkv

/-- C8 (amended): for every message whose strings are printable ASCII
(where the model's byte layout matches `json.dumps`), whose extra
headers contain neither `content-length` nor `content-type`, and whose
encoded header fits the 16-bit prefix, decoding the encoding preserves
the body exactly but yields the extra headers with
`content-type: text/json` prepended — it does not return the original
message (see the counterexample). -/
theorem C8_message_roundtrip (m : WireMsg)
    (_hclean : cleanMsg m = true)
    (hcl : dictLookup m.extra_headers "content-length" = none)
    (hct : dictLookup m.extra_headers "content-type" = none)
    (hfit : (encodedHeader m).length < 65536) :
    ∃ w, Message.encode m = .ok w ∧
      Message.from_bytes w
        = .ok ⟨m.body, ("content-type", .jstr "text/json") :: m.extra_headers⟩ := by
  refine ⟨Char.ofNat ((encodedHeader m).length / 256)
      :: Char.ofNat ((encodedHeader m).length % 256)
      :: (encodedHeader m ++ encodedBody m), ?_, ?_⟩
  · unfold Message.encode
    rw [if_pos hfit]
  · have hkeys := dictLookup_eq_none_forall hcl
    have hkeys2 := dictLookup_eq_none_forall hct
    have hbase : ∀ kv ∈ m.extra_headers,
        (dictLookup [("content-length", JVal.jint ((encodedBody m).length : Int)),
          ("content-type", JVal.jstr "text/json")] kv.1).isNone = true := by
      intro kv hkv
      unfold dictLookup
      rw [if_neg (fun h => hkeys kv hkv h.symm)]
      unfold dictLookup
      rw [if_neg (fun h => hkeys2 kv hkv h.symm)]
      rfl
    have hheader : dictUpdate (baseHeader (encodedBody m).length) m.extra_headers
        = ("content-length", .jint ((encodedBody m).length : Int))
          :: ("content-type", .jstr "text/json") :: m.extra_headers := by
      unfold dictUpdate baseHeader
      simp only [List.map_cons, List.map_nil, List.cons_append, List.nil_append,
        hcl, hct]
      rw [List.filter_eq_self.2 hbase]
    unfold Message.from_bytes
    simp only []
    have h256 : (Char.ofNat ((encodedHeader m).length / 256)).toNat
        = (encodedHeader m).length / 256 := toNat_ofNat_valid _ (by omega)
    have hmod : (Char.ofNat ((encodedHeader m).length % 256)).toNat
        = (encodedHeader m).length % 256 :=
      toNat_ofNat_valid _ (by
        have := Nat.mod_lt (encodedHeader m).length (show 0 < 256 by omega)
        omega)
    have hL : (Char.ofNat ((encodedHeader m).length / 256)).toNat * 256
        + (Char.ofNat ((encodedHeader m).length % 256)).toNat
        = (encodedHeader m).length := by
      rw [h256, hmod]
      omega
    rw [hL]
    rw [List.take_left' rfl]
    rw [show encodedHeader m
        = dumpVal (.jobj (dictUpdate (baseHeader (encodedBody m).length)
            m.extra_headers)) from rfl]
    rw [jsonLoads_dump]
    simp only []
    rw [hheader]
    unfold dictLookup
    rw [if_pos rfl]
    simp only []
    rw [if_pos (Int.ofNat_nonneg _)]
    rw [List.drop_left' rfl]
    rw [show ((encodedBody m).length : Int).toNat = (encodedBody m).length from
      Int.toNat_ofNat _]
    rw [List.take_length]
    rw [show encodedBody m = dumpVal (.jobj m.body) from rfl, jsonLoads_dump]
    simp only []
    congr 1
    congr 1
    rw [List.filter_cons_of_neg (by simp)]
    rw [List.filter_cons_of_pos (by simp)]
    congr 1
    rw [List.filter_eq_self]
    intro kv hkv
    simpa using hkeys kv hkv

/-- C8 witness: the amended round-trip at a concrete status message. -/
theorem C8_witness :
    cleanMsg ⟨[("status", .jint 1)], [("message-class", .jstr "StatusMessage")]⟩ = true ∧
      ∃ w, Message.encode ⟨[("status", .jint 1)],
              [("message-class", .jstr "StatusMessage")]⟩ = .ok w ∧
        Message.from_bytes w
          = .ok ⟨[("status", .jint 1)],
              [("content-type", .jstr "text/json"),
               ("message-class", .jstr "StatusMessage")]⟩ :=
  ⟨by decide,
   C8_message_roundtrip ⟨[("status", .jint 1)], [("message-class", .jstr "StatusMessage")]⟩
     (by decide) (by decide) (by decide) (by decide)⟩
